import Mathlib

/-!
# Verification of the ImagingPlatform spot-tracking core

Shallow embedding of the spot detection / tracking algorithm and its data
model from `src/post_tracking` (`_structure.py`, `_tracking.py`,
`_tracking_worker.py`), together with proofs of the specified properties.

Conventions of the embedding:
* Python `int` is modelled as `ℤ`, Python `float` as `ℚ` where the source
  only forms exact dyadic products (`* 0.75`, `* 1.25`) and as `ℝ` for
  `linalg.norm`; `int(...)` truncation toward zero is `pyInt`.
* Fallible Python code (functions that can raise) is modelled in
  `Except PyErr`; functions returning `None` on failure return `Option`.
* Calls into external libraries (OpenCV, numpy) that are opaque to this
  repository are modelled as total oracle parameters collected in the
  `CV` structure; the shapes of intermediate arrays, the slicing
  semantics of numpy, and all arithmetic done by the repository itself
  are modelled concretely.
-/

/-- Python exception kinds that the modelled code can raise. -/
inductive PyErr
  | attributeError
  | valueError
  | typeError
  | fileNotFoundError
  deriving DecidableEq, Repr

deriving instance DecidableEq for Except

/-- `int()` applied to an exact rational: truncation toward zero
(Python `int(float)`). -/
def pyInt (q : ℚ) : ℤ :=
  if 0 ≤ q then ⌊q⌋ else -⌊-q⌋

/-! ## Data model (`_structure.py`) -/

/-- `Spot` dataclass: x/y position (x horizontal, y vertical) and optional
radius, all integer pixels. -/
structure Spot where
  x : ℤ
  y : ℤ
  radius : Option ℤ := none
  deriving DecidableEq, Repr

/-- `Spot.__sub__`: coordinate difference, radius dropped. -/
def Spot.sub (s o : Spot) : Spot :=
  ⟨s.x - o.x, s.y - o.y, none⟩

/-- `Well` dataclass: an id and two optional spots. -/
structure Well where
  id : ℕ
  spot_1 : Option Spot := none
  spot_2 : Option Spot := none
  deriving DecidableEq, Repr

/-- `Well.is_defined`: both spots present. -/
def Well.is_defined (w : Well) : Bool :=
  w.spot_1.isSome && w.spot_2.isSome

/-- `Well.distance`: raises `ValueError` unless `is_defined`, else the
Euclidean norm of `spot_1 - spot_2` (`linalg.norm` modelled as the real
square root). -/
noncomputable def Well.distance (w : Well) : Except PyErr ℝ :=
  match w.spot_1, w.spot_2 with
  | some s1, some s2 =>
      let diff := s1.sub s2
      .ok (Real.sqrt (((diff.x : ℝ)) ^ 2 + ((diff.y : ℝ)) ^ 2))
  | _, _ => .error .valueError

/-- `Quadrant` dataclass: image path, acquisition time, camera id and two
wells (defaulting to `Well(0)` and `Well(1)`). -/
structure Quadrant where
  path : String
  acq_time : ℤ
  id : ℕ
  well_1 : Well := ⟨0, none, none⟩
  well_2 : Well := ⟨1, none, none⟩
  deriving DecidableEq, Repr

/-- `Quadrant.__bool__`: at least one well fully defined. -/
def Quadrant.truthy (q : Quadrant) : Bool :=
  q.well_1.is_defined || q.well_2.is_defined

/-- `TimePoint` dataclass: the four quadrants A–D (cameras 0–3). -/
structure TimePoint where
  A : Quadrant
  B : Quadrant
  C : Quadrant
  D : Quadrant
  deriving DecidableEq, Repr

/-- `TimePoint.__bool__`: some quadrant is truthy. -/
def TimePoint.truthy (tp : TimePoint) : Bool :=
  tp.A.truthy || tp.B.truthy || tp.C.truthy || tp.D.truthy

/-- Positional access to the quadrants in iteration order A, B, C, D
(the order produced by `TimePoint.__iter__`). -/
def TimePoint.quad (tp : TimePoint) : Fin 4 → Quadrant
  | 0 => tp.A
  | 1 => tp.B
  | 2 => tp.C
  | 3 => tp.D

/-- Positional access to the wells in iteration order (the order produced
by `Quadrant.__iter__`). -/
def Quadrant.well (q : Quadrant) : Fin 2 → Well
  | 0 => q.well_1
  | 1 => q.well_2

/-! ### Filename parsing (`path_to_time`, `TimePoint.parse_paths`) -/

/-- `str.endswith`, over the character list of the string. -/
def strEndsWith (s suffix : String) : Bool :=
  suffix.data.isSuffixOf s.data

/-- Split a character list at every `_` (the separator structure of the
acquisition-filename pattern; `\d+` and the camera suffix contain no
underscore). -/
def splitUnderscore : List Char → List (List Char)
  | [] => [[]]
  | c :: cs =>
      match splitUnderscore cs with
      | [] => [[]]
      | h :: t => if c = '_' then [] :: h :: t else (c :: h) :: t

/-- The numeric value of a decimal digit character. -/
def charDigit? (c : Char) : Option ℕ :=
  if '0' ≤ c ∧ c ≤ '9' then some (c.toNat - 48) else none

/-- `int(...)` applied to one `(\d+)` group: a nonempty all-digit
character list parsed as a decimal number. -/
def digitsToNat? (l : List Char) : Option ℕ :=
  if l = [] then none
  else l.foldl (fun acc c =>
    match acc, charDigit? c with
    | some n, some d => some (10 * n + d)
    | _, _ => none) (some 0)

/-- The camera-suffix alternative `[0123]\.(?:jpg|png)` of the filename
pattern, as the trailing component after the last `_`. -/
def camPart (s : List Char) : Option ℕ :=
  if s = "0.jpg".data ∨ s = "0.png".data then some 0
  else if s = "1.jpg".data ∨ s = "1.png".data then some 1
  else if s = "2.jpg".data ∨ s = "2.png".data then some 2
  else if s = "3.jpg".data ∨ s = "3.png".data then some 3
  else none

/-- `re.fullmatch` of `(\d+)_(\d+)_(\d+)_(\d+)_(\d+)_(\d+)_[0123]\.(?:jpg|png)`:
six integer fields and the camera index, or `none` when the name does not
match. -/
def matchAcq (name : String) : Option (ℕ × ℕ × ℕ × ℕ × ℕ × ℕ × ℕ) :=
  match splitUnderscore name.data with
  | [a, b, c, d, e, f, g] =>
    match digitsToNat? a, digitsToNat? b, digitsToNat? c, digitsToNat? d,
        digitsToNat? e, digitsToNat? f, camPart g with
    | some y, some mo, some dd, some h, some mi, some s, some cam =>
        some (y, mo, dd, h, mi, s, cam)
    | _, _, _, _, _, _, _ => none
  | _ => none

/-- Leap year in the proleptic Gregorian calendar. -/
def isLeap (y : ℕ) : Bool :=
  y % 4 = 0 && (y % 100 ≠ 0 || y % 400 = 0)

/-- Days in the year strictly before month `m` (1-based). -/
def daysBeforeMonth (leap : Bool) (m : ℕ) : ℕ :=
  let base := match m with
    | 1 => 0 | 2 => 31 | 3 => 59 | 4 => 90 | 5 => 120 | 6 => 151
    | 7 => 181 | 8 => 212 | 9 => 243 | 10 => 273 | 11 => 304 | _ => 334
  if 2 < m ∧ leap then base + 1 else base

/-- `datetime.date(y, m, 1).toordinal()` for a valid year/month: days from
0001-01-01 (ordinal 1) in the proleptic Gregorian calendar. -/
def toOrdinalFirst (y m : ℕ) : ℕ :=
  365 * (y - 1) + (y - 1) / 4 - (y - 1) / 100 + (y - 1) / 400
    + daysBeforeMonth (isLeap y) m + 1

/-- `calendar.timegm((y, mo, d, h, mi, s))`: Unix seconds for a UTC time
tuple; the day field is used unvalidated, exactly as in the source of
`calendar.timegm`. `719163` is the ordinal of 1970-01-01. -/
def timegm (y mo d h mi s : ℕ) : ℤ :=
  let days : ℤ := (toOrdinalFirst y mo : ℤ) - 719163 + (d : ℤ) - 1
  ((days * 24 + (h : ℤ)) * 60 + (mi : ℤ)) * 60 + (s : ℤ)

/-- `path_to_time`: parse the filename and return the Unix timestamp.
A non-matching name raises `AttributeError` (from `.groups()` on `None`);
an out-of-range year or month raises `ValueError` inside
`datetime.date`. -/
def path_to_time (name : String) : Except PyErr ℤ :=
  match matchAcq name with
  | none => .error .attributeError
  | some (y, mo, d, h, mi, s, _) =>
      if 1 ≤ y ∧ y ≤ 9999 ∧ 1 ≤ mo ∧ mo ≤ 12 then .ok (timegm y mo d h mi s)
      else .error .valueError

/-- The `endswith`-based camera dispatch of the assignment loop in
`TimePoint.parse_paths` (checked in the order 0, 1, 2, 3). -/
def endsWithCam (n : String) : Option ℕ :=
  if strEndsWith n "0.png" ∨ strEndsWith n "0.jpg" then some 0
  else if strEndsWith n "1.png" ∨ strEndsWith n "1.jpg" then some 1
  else if strEndsWith n "2.png" ∨ strEndsWith n "2.jpg" then some 2
  else if strEndsWith n "3.png" ∨ strEndsWith n "3.jpg" then some 3
  else none

/-- One step of the assignment loop of `parse_paths`: place `p` in the
slot named by its camera suffix (overwriting), or leave the state
unchanged when no suffix matches. -/
def assignCam (st : Option String × Option String × Option String × Option String)
    (p : String) :
    Option String × Option String × Option String × Option String :=
  match endsWithCam p with
  | some 0 => (some p, st.2.1, st.2.2.1, st.2.2.2)
  | some 1 => (st.1, some p, st.2.2.1, st.2.2.2)
  | some 2 => (st.1, st.2.1, some p, st.2.2.2)
  | some 3 => (st.1, st.2.1, st.2.2.1, some p)
  | _ => st

/-- The state of the assignment loop of `parse_paths` after its four
iterations: one optional path per camera slot. -/
def camSlots (p1 p2 p3 p4 : String) :
    Option String × Option String × Option String × Option String :=
  assignCam (assignCam (assignCam (assignCam (none, none, none, none) p1) p2) p3) p4

/-- `TimePoint.parse_paths`: dispatch the four paths to quadrant slots by
camera suffix, raise `FileNotFoundError` when a slot stays empty, then
parse the four timestamps (first failure propagates, matching the
sequential calls of the source) and build the TimePoint with freshly
initialized wells. -/
def TimePoint.parse_paths (p1 p2 p3 p4 : String) : Except PyErr TimePoint :=
  match camSlots p1 p2 p3 p4 with
  | (some pa, some pb, some pc, some pd) =>
      match path_to_time pa with
      | .error e => .error e
      | .ok ta =>
        match path_to_time pb with
        | .error e => .error e
        | .ok tb =>
          match path_to_time pc with
          | .error e => .error e
          | .ok tc =>
            match path_to_time pd with
            | .error e => .error e
            | .ok td =>
                .ok ⟨⟨pa, ta, 0, ⟨0, none, none⟩, ⟨1, none, none⟩⟩,
                     ⟨pb, tb, 1, ⟨0, none, none⟩, ⟨1, none, none⟩⟩,
                     ⟨pc, tc, 2, ⟨0, none, none⟩, ⟨1, none, none⟩⟩,
                     ⟨pd, td, 3, ⟨0, none, none⟩, ⟨1, none, none⟩⟩⟩
  | _ => .error .fileNotFoundError

/-! ### Export (`TimePoint.export`) -/

/-- One CSV record produced by `TimePoint.export`. -/
structure ExportRecord where
  timestamp_seconds : ℤ
  timestamp_human : String
  quadrant : ℕ
  well : ℕ
  spot_1_x : Option ℤ
  spot_1_y : Option ℤ
  spot_1_r : Option ℤ
  spot_2_x : Option ℤ
  spot_2_y : Option ℤ
  spot_2_r : Option ℤ
  deriving DecidableEq, Repr

/-- Inverse civil-calendar computation for `time.gmtime`: days since
1970-01-01 to `(year, month, day)` in the proleptic Gregorian calendar. -/
def civilFromDays (z0 : ℤ) : ℤ × ℕ × ℕ :=
  let z := z0 + 719468
  let era := z.ediv 146097
  let doe := (z - era * 146097).toNat
  let yoe := (doe - doe / 1460 + doe / 36524 - doe / 146096) / 365
  let doy := doe - (365 * yoe + yoe / 4 - yoe / 100)
  let mp := (5 * doy + 2) / 153
  let d := doy - (153 * mp + 2) / 5 + 1
  let m := if mp < 10 then mp + 3 else mp - 9
  (if m ≤ 2 then (yoe : ℤ) + era * 400 + 1 else (yoe : ℤ) + era * 400, m, d)

/-- `time.gmtime`: split a Unix timestamp into a UTC
`(year, month, day, hour, minute, second)` tuple. -/
def gmtime (t : ℤ) : ℤ × ℕ × ℕ × ℕ × ℕ × ℕ :=
  let days := t.ediv 86400
  let secs := (t.emod 86400).toNat
  let ymd := civilFromDays days
  (ymd.1, ymd.2.1, ymd.2.2, secs / 3600, secs % 3600 / 60, secs % 60)

/-- Zero-pad to two digits, as the `%d`/`%m`/`%H`/`%M`/`%S` conversions
of `strftime`. -/
def pad2 (n : ℕ) : String :=
  if n < 10 then "0" ++ toString n else toString n

/-- `strftime('%d/%m/%Y %H:%M:%S', ...)` applied to a UTC tuple. -/
def strftimeDmyHms : ℤ × ℕ × ℕ × ℕ × ℕ × ℕ → String
  | (y, m, d, h, mi, s) =>
      pad2 d ++ "/" ++ pad2 m ++ "/" ++ toString y ++ " "
        ++ pad2 h ++ ":" ++ pad2 mi ++ ":" ++ pad2 s

/-- The record built by the body of the export loop for one well of one
quadrant. -/
def exportWell (q : Quadrant) (w : Well) : ExportRecord :=
  ⟨q.acq_time, strftimeDmyHms (gmtime q.acq_time), q.id, w.id,
   match w.spot_1 with | some s => some s.x | none => none,
   match w.spot_1 with | some s => some s.y | none => none,
   match w.spot_1 with | some s => s.radius | none => none,
   match w.spot_2 with | some s => some s.x | none => none,
   match w.spot_2 with | some s => some s.y | none => none,
   match w.spot_2 with | some s => s.radius | none => none⟩

/-- `TimePoint.export`: one record per well, quadrants in order A, B, C,
D, and within a quadrant `well_1` before `well_2`. -/
def TimePoint.export (tp : TimePoint) : List ExportRecord :=
  [exportWell tp.A tp.A.well_1, exportWell tp.A tp.A.well_2,
   exportWell tp.B tp.B.well_1, exportWell tp.B tp.B.well_2,
   exportWell tp.C tp.C.well_1, exportWell tp.C tp.C.well_2,
   exportWell tp.D tp.D.well_1, exportWell tp.D tp.D.well_2]

/-! ## Detection and tracking engine (`_tracking.py`) -/

/-- A 3-channel image: number of rows (vertical extent), columns
(horizontal extent), and pixel contents. -/
structure Image where
  rows : ℕ
  cols : ℕ
  pix : ℕ → ℕ → ℕ × ℕ × ℕ

/-- Normalization of one slice endpoint by numpy: negative indices count
from the end, then the endpoint is clamped into `[0, n]`. -/
def npIndex (n : ℕ) (i : ℤ) : ℕ :=
  if i < 0 then (i + n).toNat else min i.toNat n

/-- `image[r1:r2, c1:c2, :]` (a copy, as the source `deepcopy`s it). -/
def crop (img : Image) (r1 r2 c1 c2 : ℤ) : Image :=
  let a := npIndex img.rows r1
  let b := npIndex img.rows r2
  let c := npIndex img.cols c1
  let d := npIndex img.cols c2
  ⟨b - a, d - c, fun i j => img.pix (a + i) (c + j)⟩

/-- One circle candidate from `cv2.HoughCircles`: horizontal center,
vertical center, radius (floating point, modelled as exact rationals). -/
structure HoughCircle where
  cx : ℚ
  cy : ℚ
  r : ℚ
  deriving DecidableEq, Repr

/-- An OpenCV contour (opaque to the repository code). -/
abbrev Contour := List (ℕ × ℕ)

/-- The external OpenCV primitives used by `_detect_spot`, modelled as
total oracles: the Otsu threshold value, contour extraction on the
binarized subframe, contour perimeter (`cv2.arcLength`), rasterization
of the first contour of the sorted list (`cv2.drawContours` with index
0 into a zero mask; an empty contour list leaves the mask blank), and
the Hough circle search
(`rows cols mask dp minDist param1 param2 minRadius maxRadius`). -/
structure CV where
  otsuThresh : ℕ → ℕ → (ℕ → ℕ → ℕ) → ℕ
  findContours : ℕ → ℕ → (ℕ → ℕ → ℕ) → List Contour
  arcLength : Contour → ℚ
  drawFirst : ℕ → ℕ → Option Contour → (ℕ → ℕ → ℕ)
  hough : ℕ → ℕ → (ℕ → ℕ → ℕ) → ℚ → ℕ → ℕ → ℕ → ℤ → ℤ → Option (List HoughCircle)

/-- Stable insertion of `c` into a list sorted by strictly decreasing
key, placing `c` after earlier elements of equal key. -/
def insertDescBy (key : Contour → ℚ) (c : Contour) : List Contour → List Contour
  | [] => [c]
  | d :: ds => if key d < key c then c :: d :: ds else d :: insertDescBy key c ds

/-- `sorted(contours, key=arcLength, reverse=True)`: stable descending
sort by perimeter. -/
def sortDescBy (key : Contour → ℚ) (l : List Contour) : List Contour :=
  l.foldl (fun acc c => insertDescBy key c acc) []

/-- `np.average(roi, axis=2).astype('uint8')`: per-pixel channel mean,
truncated to an integer. -/
def grayAvg (roi : Image) : ℕ → ℕ → ℕ := fun i j =>
  ((roi.pix i j).1 + (roi.pix i j).2.1 + (roi.pix i j).2.2) / 3

/-- Steps 3–6 of the pipeline: grayscale conversion, inverted-polarity
Otsu binarization (`THRESH_BINARY_INV`: 255 where the intensity is at
most the threshold), contour extraction, stable descending sort by
perimeter, and rasterization of contour 0 into a fresh mask. -/
def maskOf (cv : CV) (roi : Image) : ℕ → ℕ → ℕ :=
  let gray := grayAvg roi
  let thr := cv.otsuThresh roi.rows roi.cols gray
  let bin : ℕ → ℕ → ℕ := fun i j => if gray i j ≤ thr then 255 else 0
  let contours := cv.findContours roi.rows roi.cols bin
  cv.drawFirst roi.rows roi.cols (sortDescBy cv.arcLength contours).head?

/-- Lines 141–150 of `_tracking.py`: the effective Hough radius band.
Without a prior radius the defaults come from the shorter side of the
subframe (`min/4` and `min*2`); with a prior radius they are
`int(prev_rad * 0.75)` and `int(prev_rad * 1.25)`; a supplied caller
bound is then combined by `max` (lower) or `min` (upper). -/
def effBand (rows cols : ℕ) (prev_rad min_radius max_radius : Option ℤ) : ℤ × ℤ :=
  let min_rad : ℤ := match prev_rad with
    | none => ((min rows cols : ℤ)) / 4
    | some pr => pyInt ((pr : ℚ) * (3 / 4))
  let max_rad : ℤ := match prev_rad with
    | none => ((min rows cols : ℤ)) * 2
    | some pr => pyInt ((pr : ℚ) * (5 / 4))
  (match min_radius with | none => min_rad | some m => max min_rad m,
   match max_radius with | none => max_rad | some m => min max_rad m)

/-- `_detect_spot`: run the contour pipeline on the subframe, fit Hough
circles constrained to the effective radius band (`dp = 1`, `minDist`
the longer side, `param1 = 255`, `param2 = 1`), and accept only an
unambiguous single circle, whose coordinates and radius are truncated
to integers (first component horizontal, second vertical). -/
def detectSpotSub (cv : CV) (roi : Image) (min_radius max_radius prev_rad : Option ℤ) :
    Option (ℤ × ℤ × ℤ) :=
  let mask := maskOf cv roi
  let band := effBand roi.rows roi.cols prev_rad min_radius max_radius
  match cv.hough roi.rows roi.cols mask 1 (max roi.rows roi.cols) 255 1 band.1 band.2 with
  | none => none
  | some [c] => some (pyInt c.cx, pyInt c.cy, pyInt c.r)
  | some _ => none

/-- `detect_spot`: sort the two corner points per axis, reject empty
selection boxes, run `_detect_spot` on the subframe (rows sliced by the
`x` parameters, columns by the `y` parameters, exactly as the source),
and translate the result by the region offsets (the source pairs
`Spot(y_1 + y, x_1 + x, r)` with `x, y, r = ret`). -/
def detect_spot (cv : CV) (image : Image) (y_1 x_1 y_2 x_2 : ℤ)
    (min_radius max_radius : Option ℤ) : Option Spot :=
  let xlo := min x_1 x_2
  let xhi := max x_1 x_2
  let ylo := min y_1 y_2
  let yhi := max y_1 y_2
  if xlo = xhi ∨ ylo = yhi then none
  else
    let roi := crop image xlo xhi ylo yhi
    match detectSpotSub cv roi min_radius max_radius none with
    | none => none
    | some (a, b, r) => some ⟨ylo + b, xlo + a, some r⟩

/-- `track_spot`: search a square subframe of half-side
`radius + offset` around the prior spot, run `_detect_spot` with the
prior radius, and translate the region-relative result by the region's
top-left corner. A prior spot without a radius makes the Python
arithmetic on `spot.radius` raise `TypeError`. -/
def track_spot (cv : CV) (image : Image) (spot : Spot) (offset : ℤ)
    (min_radius max_radius : Option ℤ) : Except PyErr (Option Spot) :=
  match spot.radius with
  | none => .error .typeError
  | some rad =>
      let roi := crop image (spot.y - rad - offset) (spot.y + rad + offset)
                            (spot.x - rad - offset) (spot.x + rad + offset)
      match detectSpotSub cv roi min_radius max_radius (some rad) with
      | none => .ok none
      | some (a, b, r) =>
          .ok (some ⟨spot.x - rad - offset + a, spot.y - rad - offset + b, some r⟩)

/-! ## Sequential tracking driver (`_tracking_worker.py`, `TrackingWorker.run`)

The worker walks consecutive pairs of timepoints, mutating the later
timepoint of each pair in place.  The embedding threads that mutation
explicitly and additionally returns a log of the tracking attempts, one
entry per well for which the engine was invoked.  The call to
`track_spot` — whose image argument is the UI scene image of the current
timepoint and designated quadrant — is abstracted as an oracle
`track : timepoint index → posts-table index → prior spot → result`. -/

/-- One logged tracking attempt: current timepoint index, quadrant
position (0–3 for A–D) and well position in the quadrant. -/
structure Attempt where
  t : ℕ
  quad : Fin 4
  well : Fin 2
  deriving DecidableEq, Repr

/-- The per-well body of the worker loop: skip unless the preceding
well is fully defined and the current well is not; otherwise track both
posts from the preceding spots, storing each result only on success.
The returned flag records whether the engine was invoked. -/
def trackWell (track : ℕ → ℕ → Spot → Option Spot) (t : ℕ)
    (prevW curW : Well) : Well × Bool :=
  match prevW.spot_1, prevW.spot_2 with
  | some p1, some p2 =>
      if curW.is_defined then (curW, false)
      else
        let w1 : Well := match track t (2 * curW.id) p1 with
          | some s => ⟨curW.id, some s, curW.spot_2⟩
          | none => curW
        let w2 : Well := match track t (2 * curW.id + 1) p2 with
          | some s => ⟨w1.id, w1.spot_1, some s⟩
          | none => w1
        (w2, true)
  | _, _ => (curW, false)

/-- The per-quadrant body of the worker loop: skip quadrants whose
predecessor holds no data and quadrants other than the designated
camera `sel`; otherwise process both wells. -/
def trackQuad (track : ℕ → ℕ → Spot → Option Spot) (sel : ℕ) (t : ℕ)
    (p : Fin 4) (prevQ curQ : Quadrant) : Quadrant × List Attempt :=
  if !prevQ.truthy then (curQ, [])
  else if curQ.id ≠ sel then (curQ, [])
  else
    let r1 := trackWell track t prevQ.well_1 curQ.well_1
    let r2 := trackWell track t prevQ.well_2 curQ.well_2
    (⟨curQ.path, curQ.acq_time, curQ.id, r1.1, r2.1⟩,
     (if r1.2 then [⟨t, p, 0⟩] else []) ++ (if r2.2 then [⟨t, p, 1⟩] else []))

/-- The per-timepoint body of the worker loop: skip until the first
timepoint holding any data, then process the four quadrant pairs. -/
def trackTP (track : ℕ → ℕ → Spot → Option Spot) (sel : ℕ) (t : ℕ)
    (prev cur : TimePoint) : TimePoint × List Attempt :=
  if !prev.truthy then (cur, [])
  else
    let ra := trackQuad track sel t 0 prev.A cur.A
    let rb := trackQuad track sel t 1 prev.B cur.B
    let rc := trackQuad track sel t 2 prev.C cur.C
    let rd := trackQuad track sel t 3 prev.D cur.D
    (⟨ra.1, rb.1, rc.1, rd.1⟩, ra.2 ++ rb.2 ++ rc.2 ++ rd.2)

/-- The pairwise loop from the second timepoint on: at iteration `i` the
cooperative stop flag is checked before the pair `(i, i+1)` is
processed; an early return leaves the remaining timepoints untouched. -/
def runFrom (track : ℕ → ℕ → Spot → Option Spot) (sel : ℕ) (stop : ℕ → Bool) :
    ℕ → TimePoint → List TimePoint → List TimePoint × List Attempt
  | _, _, [] => ([], [])
  | i, prev, cur :: rest =>
      if stop i then (cur :: rest, [])
      else
        let step := trackTP track sel (i + 1) prev cur
        let tail := runFrom track sel stop (i + 1) step.1 rest
        (step.1 :: tail.1, step.2 ++ tail.2)

/-- `TrackingWorker.run`: process every consecutive pair of timepoints,
threading the mutated later timepoint into the next pair. -/
def TrackingWorker.run (track : ℕ → ℕ → Spot → Option Spot) (sel : ℕ)
    (stop : ℕ → Bool) : List TimePoint → List TimePoint × List Attempt
  | [] => ([], [])
  | tp0 :: rest =>
      let tail := runFrom track sel stop 0 tp0 rest
      (tp0 :: tail.1, tail.2)

/-- A placeholder timepoint used as the default of list lookups in
statements; lookups are always guarded by bounds. -/
def tpDefault : TimePoint :=
  ⟨⟨"", 0, 0, ⟨0, none, none⟩, ⟨1, none, none⟩⟩,
   ⟨"", 0, 1, ⟨0, none, none⟩, ⟨1, none, none⟩⟩,
   ⟨"", 0, 2, ⟨0, none, none⟩, ⟨1, none, none⟩⟩,
   ⟨"", 0, 3, ⟨0, none, none⟩, ⟨1, none, none⟩⟩⟩

/-- The constantly-false stop flag (a run that is never cancelled). -/
def neverStop : ℕ → Bool := fun _ => false

/-! ## Concrete instances used in witnesses and counterexamples -/

/-- A uniform black 100×100 test image. -/
def img100 : Image := ⟨100, 100, fun _ _ => (0, 0, 0)⟩

/-- Oracle instance whose Hough search never finds a circle. -/
def cvNone : CV :=
  ⟨fun _ _ _ => 0, fun _ _ _ => [], fun _ => 0, fun _ _ _ _ _ => 0,
   fun _ _ _ _ _ _ _ _ _ => none⟩

/-- Oracle instance whose Hough search always returns two candidate
circles (an ambiguous fit). -/
def cvTwo : CV :=
  ⟨fun _ _ _ => 0, fun _ _ _ => [], fun _ => 0, fun _ _ _ _ _ => 0,
   fun _ _ _ _ _ _ _ _ _ => some [⟨1, 1, 1⟩, ⟨2, 2, 2⟩]⟩

/-- Oracle instance whose Hough search always returns the single circle
`(3, 4, 7)`. -/
def cvSeven : CV :=
  ⟨fun _ _ _ => 0, fun _ _ _ => [], fun _ => 0, fun _ _ _ _ _ => 0,
   fun _ _ _ _ _ _ _ _ _ => some [⟨3, 4, 7⟩]⟩

/-- Default record used for list lookups in statements about
`TimePoint.export`; lookups are always guarded by bounds. -/
def recDefault : ExportRecord := ⟨0, "", 0, 0, none, none, none, none, none, none⟩

/-- A fully defined well (both spots detected, radius 5). -/
def wellLR : Well := ⟨0, some ⟨10, 10, some 5⟩, some ⟨30, 10, some 5⟩⟩

/-- An empty quadrant with camera id `i`. -/
def quadE (i : ℕ) : Quadrant := ⟨"", 0, i, ⟨0, none, none⟩, ⟨1, none, none⟩⟩

/-- A quadrant with camera id `i` whose first well is fully defined. -/
def quadF (i : ℕ) : Quadrant := ⟨"", 0, i, wellLR, ⟨1, none, none⟩⟩

/-- A timepoint with no detected spots at all. -/
def tpEmpty : TimePoint := ⟨quadE 0, quadE 1, quadE 2, quadE 3⟩

/-- A timepoint whose quadrant A has its first well fully defined. -/
def tpSeedA : TimePoint := ⟨quadF 0, quadE 1, quadE 2, quadE 3⟩

/-- Input run for the driver counterexamples: seeded at timepoint 0,
empty at 1, manually re-seeded at 2, empty at 3. -/
def tpsCex : List TimePoint := [tpSeedA, tpEmpty, tpSeedA, tpEmpty]

/-- Tracking oracle that loses every spot at timepoint 1 and succeeds
everywhere else with a one-pixel drift. -/
def trackCexC2 : ℕ → ℕ → Spot → Option Spot :=
  fun t _ s => if t = 1 then none else some ⟨s.x + 1, s.y + 1, s.radius⟩

/-- Tracking oracle that loses only the second post of each well at
timepoint 1 and succeeds everywhere else with a one-pixel drift. -/
def trackCexC10 : ℕ → ℕ → Spot → Option Spot :=
  fun t post s =>
    if t = 1 ∧ post = 1 then none else some ⟨s.x + 1, s.y + 1, s.radius⟩

/-! ## Claim theorems -/

/-- C3: for every image and every region whose two corner points have
equal `x` coordinates or equal `y` coordinates (zero width or zero
height, in any corner ordering), `detect_spot` returns `none`
immediately — for every image and every oracle instantiation, so the
image contents are never examined and nothing is raised. -/
theorem claim_C3 (cv : CV) (img : Image) (y_1 x_1 y_2 x_2 : ℤ)
    (mn mx : Option ℤ) (h : x_1 = x_2 ∨ y_1 = y_2) :
    detect_spot cv img y_1 x_1 y_2 x_2 mn mx = none := by
  rcases h with h | h <;> subst h <;> simp [detect_spot]

/-- Witness for C3 at a concrete degenerate region. -/
theorem claim_C3_witness :
    detect_spot cvNone img100 0 5 9 5 none none = none :=
  claim_C3 cvNone img100 0 5 9 5 none none (Or.inl rfl)

/-- C9: `detect_spot` is order-invariant in its two corner points, and
more precisely depends only on the per-axis minimum and maximum of the
supplied coordinates. -/
theorem claim_C9 (cv : CV) (img : Image) (y_1 x_1 y_2 x_2 : ℤ)
    (mn mx : Option ℤ) :
    detect_spot cv img y_1 x_1 y_2 x_2 mn mx
      = detect_spot cv img y_2 x_2 y_1 x_1 mn mx ∧
    detect_spot cv img y_1 x_1 y_2 x_2 mn mx
      = detect_spot cv img (min y_1 y_2) (min x_1 x_2)
          (max y_1 y_2) (max x_1 x_2) mn mx := by
  constructor
  · simp only [detect_spot, min_comm x_1 x_2, max_comm x_1 x_2,
      min_comm y_1 y_2, max_comm y_1 y_2]
  · simp only [detect_spot, min_eq_left min_le_max, max_eq_right min_le_max]

/-- C4: given total library primitives, `detect_spot` and `track_spot`
are total: `detect_spot` always returns a `Spot` or `none`, and
`track_spot` never raises when the prior spot has a radius — a failed
or empty detection is never escalated to an error. -/
theorem claim_C4 (cv : CV) (img : Image) :
    (∀ y_1 x_1 y_2 x_2 mn mx,
      detect_spot cv img y_1 x_1 y_2 x_2 mn mx = none ∨
        ∃ s, detect_spot cv img y_1 x_1 y_2 x_2 mn mx = some s) ∧
    (∀ (spot : Spot) (off : ℤ) (mn mx : Option ℤ) (r : ℤ),
      spot.radius = some r →
        ∃ res : Option Spot, track_spot cv img spot off mn mx = .ok res) := by
  constructor
  · intro y_1 x_1 y_2 x_2 mn mx
    cases h : detect_spot cv img y_1 x_1 y_2 x_2 mn mx with
    | none => exact Or.inl rfl
    | some s => exact Or.inr ⟨s, rfl⟩
  · intro spot off mn mx r hr
    simp only [track_spot, hr]
    cases h : detectSpotSub cv
        (crop img (spot.y - r - off) (spot.y + r + off)
          (spot.x - r - off) (spot.x + r + off)) mn mx (some r) with
    | none => exact ⟨none, by simp [h]⟩
    | some v =>
      obtain ⟨a, b, c⟩ := v
      exact ⟨some ⟨spot.x - r - off + a, spot.y - r - off + b, some c⟩, by simp [h]⟩

/-- Witness for C4: a concrete tracking call that returns a value
(namely `none`) instead of raising. -/
theorem claim_C4_witness :
    ∃ res : Option Spot, track_spot cvNone img100 ⟨20, 20, some 5⟩ 10 none none = .ok res :=
  (claim_C4 cvNone img100).2 ⟨20, 20, some 5⟩ 10 none none 5 rfl

/-- C5: whenever the Hough circle search returns no circle, or more
than one candidate, `_detect_spot` reports `none`; when it returns
exactly one circle, its center coordinates and radius are truncated to
integers and returned. -/
theorem claim_C5 (cv : CV) (roi : Image) (mn mx pr : Option ℤ) :
    (cv.hough roi.rows roi.cols (maskOf cv roi) 1 (max roi.rows roi.cols) 255 1
        (effBand roi.rows roi.cols pr mn mx).1
        (effBand roi.rows roi.cols pr mn mx).2 = none →
      detectSpotSub cv roi mn mx pr = none) ∧
    (∀ l, cv.hough roi.rows roi.cols (maskOf cv roi) 1 (max roi.rows roi.cols) 255 1
        (effBand roi.rows roi.cols pr mn mx).1
        (effBand roi.rows roi.cols pr mn mx).2 = some l → l.length ≠ 1 →
      detectSpotSub cv roi mn mx pr = none) ∧
    (∀ c, cv.hough roi.rows roi.cols (maskOf cv roi) 1 (max roi.rows roi.cols) 255 1
        (effBand roi.rows roi.cols pr mn mx).1
        (effBand roi.rows roi.cols pr mn mx).2 = some [c] →
      detectSpotSub cv roi mn mx pr = some (pyInt c.cx, pyInt c.cy, pyInt c.r)) := by
  refine ⟨?_, ?_, ?_⟩
  · intro h
    simp only [detectSpotSub]
    rw [h]
  · intro l h hl
    simp only [detectSpotSub]
    rw [h]
    rcases l with _ | ⟨c, _ | ⟨d, rest⟩⟩
    · rfl
    · simp at hl
    · rfl
  · intro c h
    simp only [detectSpotSub]
    rw [h]

/-- Witness for C5: with a concrete oracle returning two candidate
circles, the detection reports `none`. -/
theorem claim_C5_witness :
    detectSpotSub cvTwo img100 none none none = none :=
  (claim_C5 cvTwo img100 none none none).2.1 [⟨1, 1, 1⟩, ⟨2, 2, 2⟩] rfl (by decide)

/-- C8: `s1 - s2` is the spot with the coordinate differences and no
radius; for a well with both spots defined, `distance` is the Euclidean
norm of `spot_1 - spot_2`; with either spot missing, `distance` raises
`ValueError` instead of returning a value. -/
theorem claim_C8 :
    (∀ s1 s2 : Spot, Spot.sub s1 s2 = ⟨s1.x - s2.x, s1.y - s2.y, none⟩) ∧
    (∀ (w : Well) (s1 s2 : Spot), w.spot_1 = some s1 → w.spot_2 = some s2 →
      w.distance = .ok (Real.sqrt (((s1.x - s2.x : ℤ) : ℝ) ^ 2
        + ((s1.y - s2.y : ℤ) : ℝ) ^ 2))) ∧
    (∀ w : Well, w.is_defined = false → w.distance = .error PyErr.valueError) := by
  refine ⟨fun s1 s2 => rfl, ?_, ?_⟩
  · intro w s1 s2 h1 h2
    simp [Well.distance, h1, h2, Spot.sub]
  · intro w hw
    rcases h1 : w.spot_1 with _ | s1
    · rcases h2 : w.spot_2 with _ | s2 <;> simp [Well.distance, h1, h2]
    · rcases h2 : w.spot_2 with _ | s2
      · simp [Well.distance, h1, h2]
      · simp [Well.is_defined, h1, h2] at hw

/-- Witness for C8 at a concrete well whose spots are 5 pixels apart. -/
theorem claim_C8_witness :
    Well.distance ⟨0, some ⟨3, 0, none⟩, some ⟨0, 4, none⟩⟩
      = .ok (Real.sqrt (((3 - 0 : ℤ) : ℝ) ^ 2 + ((0 - 4 : ℤ) : ℝ) ^ 2)) :=
  claim_C8.2.1 ⟨0, some ⟨3, 0, none⟩, some ⟨0, 4, none⟩⟩ ⟨3, 0, none⟩ ⟨0, 4, none⟩ rfl rfl

/-- The export record of one well, with its spot fields rewritten
through `Option.map`/`Option.bind`. -/
theorem exportWell_eq (q : Quadrant) (w : Well) :
    exportWell q w = ⟨q.acq_time, strftimeDmyHms (gmtime q.acq_time), q.id, w.id,
      w.spot_1.map Spot.x, w.spot_1.map Spot.y, w.spot_1.bind Spot.radius,
      w.spot_2.map Spot.x, w.spot_2.map Spot.y, w.spot_2.bind Spot.radius⟩ := by
  rcases h1 : w.spot_1 with _ | s1 <;> rcases h2 : w.spot_2 with _ | s2 <;>
    simp [exportWell, h1, h2]

/-- C7: `TimePoint.export` returns exactly 8 records, one per well in
quadrant order A, B, C, D with `well_1` before `well_2`; the record for
well `j` of quadrant `p` carries the quadrant's timestamp (seconds and
`DD/MM/YYYY HH:MM:SS`), the camera id, the well id, and the spot fields
(coordinates and radius when a spot is present, null otherwise); with
the canonical well ids the `well` column reads 0,1,0,1,0,1,0,1. -/
theorem claim_C7 (tp : TimePoint) :
    tp.export.length = 8 ∧
    (∀ (p : Fin 4) (j : Fin 2),
      tp.export.getD (2 * (p : ℕ) + (j : ℕ)) recDefault =
        ⟨(tp.quad p).acq_time,
         strftimeDmyHms (gmtime (tp.quad p).acq_time),
         (tp.quad p).id,
         ((tp.quad p).well j).id,
         (((tp.quad p).well j).spot_1).map Spot.x,
         (((tp.quad p).well j).spot_1).map Spot.y,
         (((tp.quad p).well j).spot_1).bind Spot.radius,
         (((tp.quad p).well j).spot_2).map Spot.x,
         (((tp.quad p).well j).spot_2).map Spot.y,
         (((tp.quad p).well j).spot_2).bind Spot.radius⟩) ∧
    ((∀ p : Fin 4, ((tp.quad p).well 0).id = 0 ∧ ((tp.quad p).well 1).id = 1) →
      tp.export.map ExportRecord.well = [0, 1, 0, 1, 0, 1, 0, 1]) := by
  refine ⟨rfl, ?_, ?_⟩
  · intro p j
    fin_cases p <;> fin_cases j <;>
      simp [TimePoint.export, TimePoint.quad, Quadrant.well, exportWell_eq]
  · intro h
    simp only [TimePoint.export, exportWell_eq, List.map]
    exact congrArg₂ _ ((h 0).1) (congrArg₂ _ ((h 0).2) (congrArg₂ _ ((h 1).1)
      (congrArg₂ _ ((h 1).2) (congrArg₂ _ ((h 2).1) (congrArg₂ _ ((h 2).2)
      (congrArg₂ _ ((h 3).1) (congrArg₂ _ ((h 3).2) rfl)))))))

/-- Witness for C7: the `well` column of a concrete timepoint. -/
theorem claim_C7_witness :
    (TimePoint.export tpSeedA).map ExportRecord.well = [0, 1, 0, 1, 0, 1, 0, 1] :=
  (claim_C7 tpSeedA).2.2 (by decide)

/-- A camera suffix extracted by the dispatch chain is one of 0–3. -/
theorem endsWithCam_lt (n : String) (c : ℕ) (h : endsWithCam n = some c) : c < 4 := by
  unfold endsWithCam at h
  split_ifs at h <;> simp_all <;> omega

/-- Slot 0 after one assignment step. -/
theorem assignCam_fst (st : Option String × Option String × Option String × Option String)
    (p : String) :
    (assignCam st p).1 = if endsWithCam p = some 0 then some p else st.1 := by
  unfold assignCam
  split <;> simp_all

/-- Slot 1 after one assignment step. -/
theorem assignCam_snd1 (st : Option String × Option String × Option String × Option String)
    (p : String) :
    (assignCam st p).2.1 = if endsWithCam p = some 1 then some p else st.2.1 := by
  unfold assignCam
  split <;> simp_all

/-- Slot 2 after one assignment step. -/
theorem assignCam_snd2 (st : Option String × Option String × Option String × Option String)
    (p : String) :
    (assignCam st p).2.2.1 = if endsWithCam p = some 2 then some p else st.2.2.1 := by
  unfold assignCam
  split <;> simp_all

/-- Slot 3 after one assignment step. -/
theorem assignCam_snd3 (st : Option String × Option String × Option String × Option String)
    (p : String) :
    (assignCam st p).2.2.2 = if endsWithCam p = some 3 then some p else st.2.2.2 := by
  unfold assignCam
  split <;> simp_all

/-- Slot 0 of the finished assignment loop: the last supplied path whose
suffix names camera 0, if any. -/
theorem camSlots_fst (p1 p2 p3 p4 : String) :
    (camSlots p1 p2 p3 p4).1 =
      if endsWithCam p4 = some 0 then some p4
      else if endsWithCam p3 = some 0 then some p3
      else if endsWithCam p2 = some 0 then some p2
      else if endsWithCam p1 = some 0 then some p1
      else none := by
  simp [camSlots, assignCam_fst]

/-- Slot 1 of the finished assignment loop. -/
theorem camSlots_snd1 (p1 p2 p3 p4 : String) :
    (camSlots p1 p2 p3 p4).2.1 =
      if endsWithCam p4 = some 1 then some p4
      else if endsWithCam p3 = some 1 then some p3
      else if endsWithCam p2 = some 1 then some p2
      else if endsWithCam p1 = some 1 then some p1
      else none := by
  simp [camSlots, assignCam_snd1]

/-- Slot 2 of the finished assignment loop. -/
theorem camSlots_snd2 (p1 p2 p3 p4 : String) :
    (camSlots p1 p2 p3 p4).2.2.1 =
      if endsWithCam p4 = some 2 then some p4
      else if endsWithCam p3 = some 2 then some p3
      else if endsWithCam p2 = some 2 then some p2
      else if endsWithCam p1 = some 2 then some p1
      else none := by
  simp [camSlots, assignCam_snd2]

/-- Slot 3 of the finished assignment loop. -/
theorem camSlots_snd3 (p1 p2 p3 p4 : String) :
    (camSlots p1 p2 p3 p4).2.2.2 =
      if endsWithCam p4 = some 3 then some p4
      else if endsWithCam p3 = some 3 then some p3
      else if endsWithCam p2 = some 3 then some p2
      else if endsWithCam p1 = some 3 then some p1
      else none := by
  simp [camSlots, assignCam_snd3]

/-- `parse_paths` raises `FileNotFoundError` as soon as one slot is
empty, before any timestamp parsing. -/
theorem parse_paths_fnf (p1 p2 p3 p4 : String)
    (h : (camSlots p1 p2 p3 p4).1 = none ∨ (camSlots p1 p2 p3 p4).2.1 = none ∨
      (camSlots p1 p2 p3 p4).2.2.1 = none ∨ (camSlots p1 p2 p3 p4).2.2.2 = none) :
    TimePoint.parse_paths p1 p2 p3 p4 = .error .fileNotFoundError := by
  unfold TimePoint.parse_paths
  rcases hs : camSlots p1 p2 p3 p4 with ⟨s0, s1, s2, s3⟩
  rw [hs] at h
  rcases s0 with _ | a <;> rcases s1 with _ | b <;> rcases s2 with _ | c <;>
    rcases s3 with _ | d <;> simp_all

/-- With pairwise distinct camera indices, two entries of the path list
carrying the same camera index are the same entry. -/
theorem cam_entry_unique (n1 n2 n3 n4 : String) (c1 c2 c3 c4 k : ℕ)
    (t1 t2 t3 t4 : ℤ)
    (d12 : c1 ≠ c2) (d13 : c1 ≠ c3) (d14 : c1 ≠ c4)
    (d23 : c2 ≠ c3) (d24 : c2 ≠ c4) (d34 : c3 ≠ c4)
    (p n : String) (u t : ℤ)
    (hp : (p, k, u) ∈ [(n1, c1, t1), (n2, c2, t2), (n3, c3, t3), (n4, c4, t4)])
    (hn : (n, k, t) ∈ [(n1, c1, t1), (n2, c2, t2), (n3, c3, t3), (n4, c4, t4)]) :
    p = n ∧ u = t := by
  simp only [List.mem_cons, List.not_mem_nil, or_false, Prod.mk.injEq] at hp hn
  rcases hp with ⟨e1, e2, e3⟩ | ⟨e1, e2, e3⟩ | ⟨e1, e2, e3⟩ | ⟨e1, e2, e3⟩ <;>
    rcases hn with ⟨f1, f2, f3⟩ | ⟨f1, f2, f3⟩ | ⟨f1, f2, f3⟩ | ⟨f1, f2, f3⟩ <;>
      subst e1 <;> subst e3 <;> subst f1 <;> subst f3 <;>
        first
          | exact ⟨rfl, rfl⟩
          | omega

/-- C6: `parse_paths` on four filenames that carry four distinct camera
suffixes 0–3 assigns the path with suffix `k` to quadrant `k`
(A=0, …, D=3) regardless of the order of the arguments, with each
quadrant's `acq_time` parsed from its own filename and the wells
freshly initialized; on four paths covering fewer than four distinct
camera suffixes it raises `FileNotFoundError`. -/
theorem claim_C6 :
    (∀ (n1 n2 n3 n4 : String) (c1 c2 c3 c4 : ℕ) (t1 t2 t3 t4 : ℤ),
      endsWithCam n1 = some c1 → endsWithCam n2 = some c2 →
      endsWithCam n3 = some c3 → endsWithCam n4 = some c4 →
      path_to_time n1 = .ok t1 → path_to_time n2 = .ok t2 →
      path_to_time n3 = .ok t3 → path_to_time n4 = .ok t4 →
      c1 ≠ c2 → c1 ≠ c3 → c1 ≠ c4 → c2 ≠ c3 → c2 ≠ c4 → c3 ≠ c4 →
      ∃ tp, TimePoint.parse_paths n1 n2 n3 n4 = .ok tp ∧
        ∀ n c t,
          (n, c, t) ∈ [(n1, c1, t1), (n2, c2, t2), (n3, c3, t3), (n4, c4, t4)] →
          (c = 0 → tp.A = ⟨n, t, 0, ⟨0, none, none⟩, ⟨1, none, none⟩⟩) ∧
          (c = 1 → tp.B = ⟨n, t, 1, ⟨0, none, none⟩, ⟨1, none, none⟩⟩) ∧
          (c = 2 → tp.C = ⟨n, t, 2, ⟨0, none, none⟩, ⟨1, none, none⟩⟩) ∧
          (c = 3 → tp.D = ⟨n, t, 3, ⟨0, none, none⟩, ⟨1, none, none⟩⟩)) ∧
    (∀ n1 n2 n3 n4 : String,
      ¬(∀ k, k < 4 → ∃ n ∈ [n1, n2, n3, n4], endsWithCam n = some k) →
      TimePoint.parse_paths n1 n2 n3 n4 = .error .fileNotFoundError) := by
  constructor
  · intro n1 n2 n3 n4 c1 c2 c3 c4 t1 t2 t3 t4 h1 h2 h3 h4 g1 g2 g3 g4
      d12 d13 d14 d23 d24 d34
    have l1 := endsWithCam_lt _ _ h1
    have l2 := endsWithCam_lt _ _ h2
    have l3 := endsWithCam_lt _ _ h3
    have l4 := endsWithCam_lt _ _ h4
    have slot0 : ∃ p t, (camSlots n1 n2 n3 n4).1 = some p ∧
        path_to_time p = .ok t ∧
        (p, (0 : ℕ), t) ∈ [(n1, c1, t1), (n2, c2, t2), (n3, c3, t3), (n4, c4, t4)] := by
      have hk : c1 = 0 ∨ c2 = 0 ∨ c3 = 0 ∨ c4 = 0 := by omega
      rcases hk with hk | hk | hk | hk
      · exact ⟨n1, t1, by simp only [camSlots_fst, h1, h2, h3, h4,
          Option.some.injEq]; split_ifs <;> first | rfl | omega, g1, by simp [hk]⟩
      · exact ⟨n2, t2, by simp only [camSlots_fst, h1, h2, h3, h4,
          Option.some.injEq]; split_ifs <;> first | rfl | omega, g2, by simp [hk]⟩
      · exact ⟨n3, t3, by simp only [camSlots_fst, h1, h2, h3, h4,
          Option.some.injEq]; split_ifs <;> first | rfl | omega, g3, by simp [hk]⟩
      · exact ⟨n4, t4, by simp only [camSlots_fst, h1, h2, h3, h4,
          Option.some.injEq]; split_ifs <;> first | rfl | omega, g4, by simp [hk]⟩
    have slot1 : ∃ p t, (camSlots n1 n2 n3 n4).2.1 = some p ∧
        path_to_time p = .ok t ∧
        (p, (1 : ℕ), t) ∈ [(n1, c1, t1), (n2, c2, t2), (n3, c3, t3), (n4, c4, t4)] := by
      have hk : c1 = 1 ∨ c2 = 1 ∨ c3 = 1 ∨ c4 = 1 := by omega
      rcases hk with hk | hk | hk | hk
      · exact ⟨n1, t1, by simp only [camSlots_snd1, h1, h2, h3, h4,
          Option.some.injEq]; split_ifs <;> first | rfl | omega, g1, by simp [hk]⟩
      · exact ⟨n2, t2, by simp only [camSlots_snd1, h1, h2, h3, h4,
          Option.some.injEq]; split_ifs <;> first | rfl | omega, g2, by simp [hk]⟩
      · exact ⟨n3, t3, by simp only [camSlots_snd1, h1, h2, h3, h4,
          Option.some.injEq]; split_ifs <;> first | rfl | omega, g3, by simp [hk]⟩
      · exact ⟨n4, t4, by simp only [camSlots_snd1, h1, h2, h3, h4,
          Option.some.injEq]; split_ifs <;> first | rfl | omega, g4, by simp [hk]⟩
    have slot2 : ∃ p t, (camSlots n1 n2 n3 n4).2.2.1 = some p ∧
        path_to_time p = .ok t ∧
        (p, (2 : ℕ), t) ∈ [(n1, c1, t1), (n2, c2, t2), (n3, c3, t3), (n4, c4, t4)] := by
      have hk : c1 = 2 ∨ c2 = 2 ∨ c3 = 2 ∨ c4 = 2 := by omega
      rcases hk with hk | hk | hk | hk
      · exact ⟨n1, t1, by simp only [camSlots_snd2, h1, h2, h3, h4,
          Option.some.injEq]; split_ifs <;> first | rfl | omega, g1, by simp [hk]⟩
      · exact ⟨n2, t2, by simp only [camSlots_snd2, h1, h2, h3, h4,
          Option.some.injEq]; split_ifs <;> first | rfl | omega, g2, by simp [hk]⟩
      · exact ⟨n3, t3, by simp only [camSlots_snd2, h1, h2, h3, h4,
          Option.some.injEq]; split_ifs <;> first | rfl | omega, g3, by simp [hk]⟩
      · exact ⟨n4, t4, by simp only [camSlots_snd2, h1, h2, h3, h4,
          Option.some.injEq]; split_ifs <;> first | rfl | omega, g4, by simp [hk]⟩
    have slot3 : ∃ p t, (camSlots n1 n2 n3 n4).2.2.2 = some p ∧
        path_to_time p = .ok t ∧
        (p, (3 : ℕ), t) ∈ [(n1, c1, t1), (n2, c2, t2), (n3, c3, t3), (n4, c4, t4)] := by
      have hk : c1 = 3 ∨ c2 = 3 ∨ c3 = 3 ∨ c4 = 3 := by omega
      rcases hk with hk | hk | hk | hk
      · exact ⟨n1, t1, by simp only [camSlots_snd3, h1, h2, h3, h4,
          Option.some.injEq]; split_ifs <;> first | rfl | omega, g1, by simp [hk]⟩
      · exact ⟨n2, t2, by simp only [camSlots_snd3, h1, h2, h3, h4,
          Option.some.injEq]; split_ifs <;> first | rfl | omega, g2, by simp [hk]⟩
      · exact ⟨n3, t3, by simp only [camSlots_snd3, h1, h2, h3, h4,
          Option.some.injEq]; split_ifs <;> first | rfl | omega, g3, by simp [hk]⟩
      · exact ⟨n4, t4, by simp only [camSlots_snd3, h1, h2, h3, h4,
          Option.some.injEq]; split_ifs <;> first | rfl | omega, g4, by simp [hk]⟩
    obtain ⟨pa, ta, sa, ga, ma⟩ := slot0
    obtain ⟨pb, tb, sb, gb, mb⟩ := slot1
    obtain ⟨pc, tc, sc, gc, mc⟩ := slot2
    obtain ⟨pd, td, sd, gd, md⟩ := slot3
    have hcs : camSlots n1 n2 n3 n4 = (some pa, some pb, some pc, some pd) :=
      Prod.ext sa (Prod.ext sb (Prod.ext sc sd))
    have hparse : TimePoint.parse_paths n1 n2 n3 n4 =
        .ok ⟨⟨pa, ta, 0, ⟨0, none, none⟩, ⟨1, none, none⟩⟩,
             ⟨pb, tb, 1, ⟨0, none, none⟩, ⟨1, none, none⟩⟩,
             ⟨pc, tc, 2, ⟨0, none, none⟩, ⟨1, none, none⟩⟩,
             ⟨pd, td, 3, ⟨0, none, none⟩, ⟨1, none, none⟩⟩⟩ := by
      unfold TimePoint.parse_paths
      simp only [hcs, ga, gb, gc, gd]
    refine ⟨_, hparse, ?_⟩
    intro n c t hmem
    refine ⟨?_, ?_, ?_, ?_⟩
    · intro hc
      subst hc
      obtain ⟨rfl, rfl⟩ := cam_entry_unique n1 n2 n3 n4 c1 c2 c3 c4 0 t1 t2 t3 t4
        d12 d13 d14 d23 d24 d34 pa n ta t ma hmem
      rfl
    · intro hc
      subst hc
      obtain ⟨rfl, rfl⟩ := cam_entry_unique n1 n2 n3 n4 c1 c2 c3 c4 1 t1 t2 t3 t4
        d12 d13 d14 d23 d24 d34 pb n tb t mb hmem
      rfl
    · intro hc
      subst hc
      obtain ⟨rfl, rfl⟩ := cam_entry_unique n1 n2 n3 n4 c1 c2 c3 c4 2 t1 t2 t3 t4
        d12 d13 d14 d23 d24 d34 pc n tc t mc hmem
      rfl
    · intro hc
      subst hc
      obtain ⟨rfl, rfl⟩ := cam_entry_unique n1 n2 n3 n4 c1 c2 c3 c4 3 t1 t2 t3 t4
        d12 d13 d14 d23 d24 d34 pd n td t md hmem
      rfl
  · intro n1 n2 n3 n4 hcov
    push_neg at hcov
    obtain ⟨k, hk4, hnone⟩ := hcov
    apply parse_paths_fnf
    interval_cases k
    · exact Or.inl (by rw [camSlots_fst]; simp [hnone n1 (by simp),
        hnone n2 (by simp), hnone n3 (by simp), hnone n4 (by simp)])
    · exact Or.inr (Or.inl (by rw [camSlots_snd1]; simp [hnone n1 (by simp),
        hnone n2 (by simp), hnone n3 (by simp), hnone n4 (by simp)]))
    · exact Or.inr (Or.inr (Or.inl (by rw [camSlots_snd2]; simp [hnone n1 (by simp),
        hnone n2 (by simp), hnone n3 (by simp), hnone n4 (by simp)])))
    · exact Or.inr (Or.inr (Or.inr (by rw [camSlots_snd3]; simp [hnone n1 (by simp),
        hnone n2 (by simp), hnone n3 (by simp), hnone n4 (by simp)])))

/-- Witness for C6: four concrete shuffled filenames, and a triple that
misses camera 2. -/
theorem claim_C6_witness :
    (∃ tp, TimePoint.parse_paths "2023_4_5_6_7_8_1.jpg" "2023_4_5_6_7_8_0.jpg"
        "2023_4_5_6_7_8_3.png" "2023_4_5_6_7_8_2.jpg" = .ok tp ∧
      tp.A = ⟨"2023_4_5_6_7_8_0.jpg", 1680674828, 0, ⟨0, none, none⟩, ⟨1, none, none⟩⟩) ∧
    TimePoint.parse_paths "2023_4_5_6_7_8_1.jpg" "2023_4_5_6_7_8_0.jpg"
        "2023_4_5_6_7_8_3.png" "2023_4_5_6_7_8_0.png" = .error .fileNotFoundError := by
  constructor
  · obtain ⟨tp, htp, hall⟩ := claim_C6.1 "2023_4_5_6_7_8_1.jpg" "2023_4_5_6_7_8_0.jpg"
      "2023_4_5_6_7_8_3.png" "2023_4_5_6_7_8_2.jpg" 1 0 3 2
      1680674828 1680674828 1680674828 1680674828
      (by decide) (by decide) (by decide) (by decide)
      (by decide) (by decide) (by decide) (by decide)
      (by decide) (by decide) (by decide) (by decide) (by decide) (by decide)
    exact ⟨tp, htp, (hall "2023_4_5_6_7_8_0.jpg" 0 1680674828 (by simp)).1 rfl⟩
  · exact claim_C6.2 "2023_4_5_6_7_8_1.jpg" "2023_4_5_6_7_8_0.jpg"
      "2023_4_5_6_7_8_3.png" "2023_4_5_6_7_8_0.png" (by decide)

/-! ### Structural lemmas about the driver loop -/

/-- A quadrant with a defined well is truthy. -/
theorem Quadrant.truthy_of_well (q : Quadrant) (j : Fin 2)
    (h : (q.well j).is_defined = true) : q.truthy = true := by
  fin_cases j <;> simp_all [Quadrant.truthy, Quadrant.well]

/-- A timepoint with a truthy quadrant is truthy. -/
theorem TimePoint.truthy_of_quad (tp : TimePoint) (p : Fin 4)
    (h : (tp.quad p).truthy = true) : tp.truthy = true := by
  fin_cases p <;> simp_all [TimePoint.truthy, TimePoint.quad]

/-- The invocation flag of the per-well step: the engine is invoked
exactly when the preceding well is fully defined and the current one is
not. -/
theorem trackWell_snd (track : ℕ → ℕ → Spot → Option Spot) (t : ℕ)
    (prevW curW : Well) :
    (trackWell track t prevW curW).2
      = (prevW.is_defined && !curW.is_defined) := by
  rcases prevW with ⟨pid, _ | p1, _ | p2⟩ <;> rcases curW with ⟨cid, _ | c1, _ | c2⟩ <;>
    simp [trackWell, Well.is_defined]

/-- The per-well step leaves the current well unchanged when skipping. -/
theorem trackWell_fst_skip (track : ℕ → ℕ → Spot → Option Spot) (t : ℕ)
    (prevW curW : Well)
    (h : prevW.is_defined = false ∨ curW.is_defined = true) :
    (trackWell track t prevW curW).1 = curW := by
  rcases prevW with ⟨pid, _ | p1, _ | p2⟩ <;> rcases curW with ⟨cid, _ | c1, _ | c2⟩ <;>
    simp_all [trackWell, Well.is_defined]

/-- The per-well step when the engine is invoked: each post's result is
stored on success, and the current value kept on failure. -/
theorem trackWell_fst_go (track : ℕ → ℕ → Spot → Option Spot) (t : ℕ)
    (prevW curW : Well) (p1 p2 : Spot)
    (h1 : prevW.spot_1 = some p1) (h2 : prevW.spot_2 = some p2)
    (hc : curW.is_defined = false) :
    (trackWell track t prevW curW).1 =
      ⟨curW.id,
       match track t (2 * curW.id) p1 with
         | some s => some s
         | none => curW.spot_1,
       match track t (2 * curW.id + 1) p2 with
         | some s => some s
         | none => curW.spot_2⟩ := by
  rcases curW with ⟨cid, _ | c1, _ | c2⟩ <;>
    rcases hr1 : track t (2 * cid) p1 with _ | s1 <;>
      rcases hr2 : track t (2 * cid + 1) p2 with _ | s2 <;>
        simp_all [trackWell, Well.is_defined]

/-- The per-quadrant step skips when the preceding quadrant holds no
data or the camera is not the designated one. -/
theorem trackQuad_skip (track : ℕ → ℕ → Spot → Option Spot) (sel t : ℕ)
    (p : Fin 4) (prevQ curQ : Quadrant)
    (h : prevQ.truthy = false ∨ curQ.id ≠ sel) :
    trackQuad track sel t p prevQ curQ = (curQ, []) := by
  unfold trackQuad
  rcases h with h | h <;> simp [h]

/-- The per-quadrant step on the designated camera with data behind it:
both wells are processed and the invoked ones logged. -/
theorem trackQuad_go (track : ℕ → ℕ → Spot → Option Spot) (sel t : ℕ)
    (p : Fin 4) (prevQ curQ : Quadrant)
    (ht : prevQ.truthy = true) (hid : curQ.id = sel) :
    trackQuad track sel t p prevQ curQ =
      (⟨curQ.path, curQ.acq_time, curQ.id,
        (trackWell track t prevQ.well_1 curQ.well_1).1,
        (trackWell track t prevQ.well_2 curQ.well_2).1⟩,
       (if (trackWell track t prevQ.well_1 curQ.well_1).2 then [⟨t, p, 0⟩] else [])
         ++ (if (trackWell track t prevQ.well_2 curQ.well_2).2 then [⟨t, p, 1⟩] else [])) := by
  unfold trackQuad
  simp [ht, hid]

/-- Membership in the per-quadrant log: the engine was invoked for a
well exactly when the quadrant is the designated one, the preceding
well is defined and the current one is not. -/
theorem mem_trackQuad (track : ℕ → ℕ → Spot → Option Spot) (sel t : ℕ)
    (p : Fin 4) (prevQ curQ : Quadrant) (at' : ℕ) (ap : Fin 4) (aw : Fin 2) :
    (⟨at', ap, aw⟩ : Attempt) ∈ (trackQuad track sel t p prevQ curQ).2 ↔
      at' = t ∧ ap = p ∧ curQ.id = sel ∧
        (prevQ.well aw).is_defined = true ∧ (curQ.well aw).is_defined = false := by
  by_cases ht : prevQ.truthy = true
  · by_cases hid : curQ.id = sel
    · rw [trackQuad_go track sel t p prevQ curQ ht hid]
      simp only [trackWell_snd, List.mem_append]
      fin_cases aw <;>
        cases hp1 : (prevQ.well_1).is_defined <;>
          cases hp2 : (prevQ.well_2).is_defined <;>
            cases hc1 : (curQ.well_1).is_defined <;>
              cases hc2 : (curQ.well_2).is_defined <;>
                simp_all [Quadrant.well, hid]
    · rw [trackQuad_skip track sel t p prevQ curQ (Or.inr hid)]
      simp [hid]
  · have ht' : prevQ.truthy = false := by simpa using ht
    rw [trackQuad_skip track sel t p prevQ curQ (Or.inl ht')]
    simp only [List.not_mem_nil, false_iff]
    intro hcon
    exact absurd (Quadrant.truthy_of_well prevQ aw hcon.2.2.2.1) (by simp [ht'])

/-- The per-timepoint step skips entirely when the preceding timepoint
holds no data. -/
theorem trackTP_skip (track : ℕ → ℕ → Spot → Option Spot) (sel t : ℕ)
    (prev cur : TimePoint) (h : prev.truthy = false) :
    trackTP track sel t prev cur = (cur, []) := by
  unfold trackTP
  simp [h]

/-- The per-timepoint step with data behind it processes the four
quadrant pairs positionally. -/
theorem trackTP_go (track : ℕ → ℕ → Spot → Option Spot) (sel t : ℕ)
    (prev cur : TimePoint) (h : prev.truthy = true) :
    trackTP track sel t prev cur =
      (⟨(trackQuad track sel t 0 prev.A cur.A).1,
        (trackQuad track sel t 1 prev.B cur.B).1,
        (trackQuad track sel t 2 prev.C cur.C).1,
        (trackQuad track sel t 3 prev.D cur.D).1⟩,
       ((trackQuad track sel t 0 prev.A cur.A).2 ++ (trackQuad track sel t 1 prev.B cur.B).2
         ++ (trackQuad track sel t 2 prev.C cur.C).2)
         ++ (trackQuad track sel t 3 prev.D cur.D).2) := by
  unfold trackTP
  simp [h]

/-- The quadrant of the processed timepoint, positionally. -/
theorem trackTP_fst_quad (track : ℕ → ℕ → Spot → Option Spot) (sel t : ℕ)
    (prev cur : TimePoint) (p : Fin 4) :
    ((trackTP track sel t prev cur).1).quad p =
      (if prev.truthy then (trackQuad track sel t p (prev.quad p) (cur.quad p)).1
       else cur.quad p) := by
  by_cases h : prev.truthy = true
  · rw [trackTP_go track sel t prev cur h]
    fin_cases p <;> simp [TimePoint.quad, h]
  · have h' : prev.truthy = false := by simpa using h
    rw [trackTP_skip track sel t prev cur h']
    simp [h']

/-- Membership in the per-timepoint log. -/
theorem mem_trackTP (track : ℕ → ℕ → Spot → Option Spot) (sel t : ℕ)
    (prev cur : TimePoint) (at' : ℕ) (ap : Fin 4) (aw : Fin 2) :
    (⟨at', ap, aw⟩ : Attempt) ∈ (trackTP track sel t prev cur).2 ↔
      at' = t ∧ (cur.quad ap).id = sel ∧
        ((prev.quad ap).well aw).is_defined = true ∧
        ((cur.quad ap).well aw).is_defined = false := by
  by_cases h : prev.truthy = true
  · rw [trackTP_go track sel t prev cur h]
    simp only [List.mem_append, mem_trackQuad]
    fin_cases ap <;> simp [TimePoint.quad]
  · have h' : prev.truthy = false := by simpa using h
    rw [trackTP_skip track sel t prev cur h']
    simp only [List.not_mem_nil, false_iff]
    intro hcon
    exact absurd (TimePoint.truthy_of_quad prev ap
      (Quadrant.truthy_of_well _ aw hcon.2.2.1)) (by simp [h'])

/-- A well for which the engine is not invoked is left unchanged by the
per-timepoint step. -/
theorem trackTP_well_unchanged (track : ℕ → ℕ → Spot → Option Spot) (sel t : ℕ)
    (prev cur : TimePoint) (p : Fin 4) (w : Fin 2)
    (h : ((prev.quad p).well w).is_defined = false ∨ (cur.quad p).id ≠ sel ∨
      ((cur.quad p).well w).is_defined = true) :
    (((trackTP track sel t prev cur).1).quad p).well w = (cur.quad p).well w := by
  rw [trackTP_fst_quad]
  by_cases ht : prev.truthy = true
  · simp only [ht, if_true]
    by_cases hid : (cur.quad p).id = sel
    · by_cases hqt : (prev.quad p).truthy = true
      · rw [trackQuad_go track sel t p _ _ hqt hid]
        have hwell : ((prev.quad p).well w).is_defined = false ∨
            ((cur.quad p).well w).is_defined = true := by tauto
        fin_cases w <;>
          simp only [Quadrant.well] <;>
            exact trackWell_fst_skip track t _ _ (by simpa [Quadrant.well] using hwell)
      · rw [trackQuad_skip track sel t p _ _ (Or.inl (by simpa using hqt))]
    · rw [trackQuad_skip track sel t p _ _ (Or.inr hid)]
  · simp [by simpa using ht]

/-- Unfolding of the pairwise loop on a nonempty list. -/
theorem runFrom_cons (track : ℕ → ℕ → Spot → Option Spot) (sel : ℕ)
    (stop : ℕ → Bool) (i : ℕ) (prev cur : TimePoint) (rest : List TimePoint) :
    runFrom track sel stop i prev (cur :: rest) =
      if stop i then (cur :: rest, [])
      else ((trackTP track sel (i + 1) prev cur).1 ::
              (runFrom track sel stop (i + 1) (trackTP track sel (i + 1) prev cur).1 rest).1,
            (trackTP track sel (i + 1) prev cur).2 ++
              (runFrom track sel stop (i + 1) (trackTP track sel (i + 1) prev cur).1 rest).2) := by
  rfl

/-- The loop returns as many timepoints as it was given. -/
theorem runFrom_length (track : ℕ → ℕ → Spot → Option Spot) (sel : ℕ)
    (stop : ℕ → Bool) (rest : List TimePoint) : ∀ (i : ℕ) (prev : TimePoint),
    (runFrom track sel stop i prev rest).1.length = rest.length := by
  induction rest with
  | nil => intro i prev; rfl
  | cons cur rest ih =>
      intro i prev
      rw [runFrom_cons]
      by_cases h : stop i = true
      · simp [h]
      · simp [h, ih]

/-- Element `j` of the uncancelled loop's output is the step applied to
the previous output element (or the seed) and input element `j`. -/
theorem runFrom_get (track : ℕ → ℕ → Spot → Option Spot) (sel : ℕ)
    (rest : List TimePoint) : ∀ (i : ℕ) (prev : TimePoint) (j : ℕ), j < rest.length →
    (runFrom track sel neverStop i prev rest).1.getD j tpDefault =
      (trackTP track sel (i + j + 1)
        ((prev :: (runFrom track sel neverStop i prev rest).1).getD j tpDefault)
        (rest.getD j tpDefault)).1 := by
  induction rest with
  | nil => intro i prev j hj; simp at hj
  | cons cur rest ih =>
      intro i prev j hj
      rw [runFrom_cons]
      simp only [neverStop, Bool.false_eq_true, if_false]
      cases j with
      | zero => simp
      | succ j =>
          simp only [List.getD_cons_succ]
          have h := ih (i + 1) (trackTP track sel (i + 1) prev cur).1 j
            (by simpa using Nat.lt_of_succ_lt_succ hj)
          have harith : i + 1 + j + 1 = i + (j + 1) + 1 := by omega
          rw [h, harith]

/-- Membership in the uncancelled loop's log, located at its step. -/
theorem runFrom_mem (track : ℕ → ℕ → Spot → Option Spot) (sel : ℕ)
    (rest : List TimePoint) : ∀ (i : ℕ) (prev : TimePoint) (a : Attempt),
    a ∈ (runFrom track sel neverStop i prev rest).2 ↔
      ∃ j, j < rest.length ∧
        a ∈ (trackTP track sel (i + j + 1)
          ((prev :: (runFrom track sel neverStop i prev rest).1).getD j tpDefault)
          (rest.getD j tpDefault)).2 := by
  induction rest with
  | nil => intro i prev a; simp [runFrom]
  | cons cur rest ih =>
      intro i prev a
      rw [runFrom_cons]
      simp only [neverStop, Bool.false_eq_true, if_false, List.mem_append]
      constructor
      · rintro (h | h)
        · exact ⟨0, by simp, by simpa using h⟩
        · obtain ⟨j, hj, hmem⟩ := (ih (i + 1) (trackTP track sel (i + 1) prev cur).1 a).1 h
          refine ⟨j + 1, by simpa using Nat.succ_lt_succ hj, ?_⟩
          have harith : i + (j + 1) + 1 = i + 1 + j + 1 := by omega
          simpa [harith] using hmem
      · rintro ⟨j, hj, hmem⟩
        cases j with
        | zero =>
            left
            simpa using hmem
        | succ j =>
            right
            apply (ih (i + 1) (trackTP track sel (i + 1) prev cur).1 a).2
            refine ⟨j, by simpa using Nat.lt_of_succ_lt_succ hj, ?_⟩
            have harith : i + 1 + j + 1 = i + (j + 1) + 1 := by omega
            simpa [harith] using hmem

/-- The run returns as many timepoints as it was given. -/
theorem run_length (track : ℕ → ℕ → Spot → Option Spot) (sel : ℕ)
    (stop : ℕ → Bool) (tps : List TimePoint) :
    (TrackingWorker.run track sel stop tps).1.length = tps.length := by
  cases tps with
  | nil => rfl
  | cons tp0 rest =>
      simp [TrackingWorker.run, runFrom_length]

/-- The first timepoint is never modified by the run. -/
theorem run_get_zero (track : ℕ → ℕ → Spot → Option Spot) (sel : ℕ)
    (stop : ℕ → Bool) (tps : List TimePoint) :
    (TrackingWorker.run track sel stop tps).1.getD 0 tpDefault = tps.getD 0 tpDefault := by
  cases tps with
  | nil => rfl
  | cons tp0 rest => simp [TrackingWorker.run]

/-- Timepoint `t ≥ 1` of the uncancelled run's output is the step
applied to output timepoint `t - 1` and input timepoint `t`. -/
theorem run_get (track : ℕ → ℕ → Spot → Option Spot) (sel : ℕ)
    (tps : List TimePoint) (t : ℕ) (h1 : 1 ≤ t) (h2 : t < tps.length) :
    (TrackingWorker.run track sel neverStop tps).1.getD t tpDefault =
      (trackTP track sel t
        ((TrackingWorker.run track sel neverStop tps).1.getD (t - 1) tpDefault)
        (tps.getD t tpDefault)).1 := by
  cases tps with
  | nil => simp at h2
  | cons tp0 rest =>
      obtain ⟨j, rfl⟩ : ∃ j, t = j + 1 := ⟨t - 1, by omega⟩
      have hj : j < rest.length := by simpa using Nat.lt_of_succ_lt_succ h2
      have h := runFrom_get track sel rest 0 tp0 j hj
      simp only [TrackingWorker.run, List.getD_cons_succ, Nat.add_sub_cancel]
      rw [h]
      simp

/-- Membership in the uncancelled run's log, located at its step. -/
theorem run_mem (track : ℕ → ℕ → Spot → Option Spot) (sel : ℕ)
    (tps : List TimePoint) (a : Attempt) :
    a ∈ (TrackingWorker.run track sel neverStop tps).2 ↔
      ∃ t, 1 ≤ t ∧ t < tps.length ∧
        a ∈ (trackTP track sel t
          ((TrackingWorker.run track sel neverStop tps).1.getD (t - 1) tpDefault)
          (tps.getD t tpDefault)).2 := by
  cases tps with
  | nil => simp [TrackingWorker.run]
  | cons tp0 rest =>
      have h := runFrom_mem track sel rest 0 tp0 a
      simp only [TrackingWorker.run] at h ⊢
      rw [h]
      constructor
      · rintro ⟨j, hj, hmem⟩
        refine ⟨j + 1, by omega, by simpa using Nat.succ_lt_succ hj, ?_⟩
        simpa using hmem
      · rintro ⟨t, ht1, ht2, hmem⟩
        obtain ⟨j, rfl⟩ : ∃ j, t = j + 1 := ⟨t - 1, by omega⟩
        refine ⟨j, by simpa using Nat.lt_of_succ_lt_succ ht2, ?_⟩
        simpa using hmem

/-- Invocation characterization of the uncancelled run: the engine is
invoked at timepoint `t` for a well exactly when `t` is in range, the
current quadrant is the designated camera, the well of the (already
processed) preceding timepoint is fully defined, and the input well at
`t` is not. -/
theorem run_char (track : ℕ → ℕ → Spot → Option Spot) (sel : ℕ)
    (tps : List TimePoint) (at' : ℕ) (ap : Fin 4) (aw : Fin 2) :
    (⟨at', ap, aw⟩ : Attempt) ∈ (TrackingWorker.run track sel neverStop tps).2 ↔
      1 ≤ at' ∧ at' < tps.length ∧
        ((tps.getD at' tpDefault).quad ap).id = sel ∧
        ((((TrackingWorker.run track sel neverStop tps).1.getD (at' - 1) tpDefault).quad
          ap).well aw).is_defined = true ∧
        (((tps.getD at' tpDefault).quad ap).well aw).is_defined = false := by
  rw [run_mem]
  constructor
  · rintro ⟨t, ht1, ht2, hmem⟩
    rw [mem_trackTP] at hmem
    obtain ⟨rfl, h3, h4, h5⟩ := hmem
    exact ⟨ht1, ht2, h3, h4, h5⟩
  · rintro ⟨h1, h2, h3, h4, h5⟩
    exact ⟨at', h1, h2, (mem_trackTP track sel at' _ _ at' ap aw).2 ⟨rfl, h3, h4, h5⟩⟩

/-- Storage behavior of an invoked step: each post's tracked spot is
stored on success, and the input value is kept on failure. -/
theorem run_storage (track : ℕ → ℕ → Spot → Option Spot) (sel : ℕ)
    (tps : List TimePoint) (t : ℕ) (p : Fin 4) (w : Fin 2) (p1 p2 : Spot)
    (h1 : 1 ≤ t) (h2 : t < tps.length)
    (hs1 : ((((TrackingWorker.run track sel neverStop tps).1.getD (t - 1) tpDefault).quad
      p).well w).spot_1 = some p1)
    (hs2 : ((((TrackingWorker.run track sel neverStop tps).1.getD (t - 1) tpDefault).quad
      p).well w).spot_2 = some p2)
    (hid : ((tps.getD t tpDefault).quad p).id = sel)
    (hcur : (((tps.getD t tpDefault).quad p).well w).is_defined = false) :
    (((TrackingWorker.run track sel neverStop tps).1.getD t tpDefault).quad p).well w =
      ⟨(((tps.getD t tpDefault).quad p).well w).id,
       match track t (2 * (((tps.getD t tpDefault).quad p).well w).id) p1 with
         | some s => some s
         | none => (((tps.getD t tpDefault).quad p).well w).spot_1,
       match track t (2 * (((tps.getD t tpDefault).quad p).well w).id + 1) p2 with
         | some s => some s
         | none => (((tps.getD t tpDefault).quad p).well w).spot_2⟩ := by
  have hprevdef : ((((TrackingWorker.run track sel neverStop tps).1.getD (t - 1)
      tpDefault).quad p).well w).is_defined = true := by
    unfold Well.is_defined
    rw [hs1, hs2]
    rfl
  have hqt := Quadrant.truthy_of_well _ w hprevdef
  have htr := TimePoint.truthy_of_quad _ p hqt
  rw [run_get track sel tps t h1 h2, trackTP_fst_quad]
  simp only [htr, if_true]
  rw [trackQuad_go track sel t p _ _ hqt hid]
  fin_cases w <;>
    simp only [Quadrant.well] <;>
      exact trackWell_fst_go track t _ _ p1 p2
        (by simpa [Quadrant.well] using hs1) (by simpa [Quadrant.well] using hs2)
        (by simpa [Quadrant.well] using hcur)

/-- A well for which the engine is not invoked at `t` keeps its input
value in the output. -/
theorem run_unchanged (track : ℕ → ℕ → Spot → Option Spot) (sel : ℕ)
    (tps : List TimePoint) (t : ℕ) (p : Fin 4) (w : Fin 2)
    (h1 : 1 ≤ t) (h2 : t < tps.length)
    (h : ((((TrackingWorker.run track sel neverStop tps).1.getD (t - 1) tpDefault).quad
        p).well w).is_defined = false ∨
      ((tps.getD t tpDefault).quad p).id ≠ sel ∨
      (((tps.getD t tpDefault).quad p).well w).is_defined = true) :
    (((TrackingWorker.run track sel neverStop tps).1.getD t tpDefault).quad p).well w =
      ((tps.getD t tpDefault).quad p).well w := by
  rw [run_get track sel tps t h1 h2]
  exact trackTP_well_unchanged track sel t _ _ p w h

/-- The cancelled loop equals the uncancelled loop on the processed
prefix and leaves the rest of the input untouched. -/
theorem runFrom_stopped (track : ℕ → ℕ → Spot → Option Spot) (sel : ℕ)
    (stop : ℕ → Bool) (rest : List TimePoint) :
    ∀ (j i : ℕ) (prev : TimePoint),
    (∀ k, k < j → stop (i + k) = false) → stop (i + j) = true →
    runFrom track sel stop i prev rest =
      ((runFrom track sel neverStop i prev (rest.take j)).1 ++ rest.drop j,
       (runFrom track sel neverStop i prev (rest.take j)).2) := by
  induction rest with
  | nil => intro j i prev hk hj; simp [runFrom]
  | cons cur rest ih =>
      intro j i prev hk hj
      cases j with
      | zero =>
          rw [runFrom_cons]
          have h0 : stop i = true := by simpa using hj
          simp [h0, runFrom]
      | succ j =>
          have h0 : stop i = false := by simpa using hk 0 (Nat.succ_pos j)
          rw [runFrom_cons]
          simp only [List.take_succ_cons, List.drop_succ_cons]
          rw [runFrom_cons]
          simp only [h0, neverStop, Bool.false_eq_true, if_false]
          have hrec := ih j (i + 1) (trackTP track sel (i + 1) prev cur).1
            (fun k hk' => by
              have := hk (k + 1) (Nat.succ_lt_succ hk')
              simpa [Nat.add_assoc, Nat.add_comm 1 k] using this)
            (by
              have : i + (j + 1) = i + 1 + j := by omega
              rw [this] at hj
              exact hj)
          rw [hrec]
          simp

/-- Early termination: if the stop flag first fires at iteration `j`,
the run output is the uncancelled run of the first `j + 1` timepoints
followed by the remaining input timepoints untouched, with the matching
log. -/
theorem run_stopped (track : ℕ → ℕ → Spot → Option Spot) (sel : ℕ)
    (stop : ℕ → Bool) (tps : List TimePoint) (j : ℕ)
    (hk : ∀ k, k < j → stop k = false) (hj : stop j = true) :
    TrackingWorker.run track sel stop tps =
      ((TrackingWorker.run track sel neverStop (tps.take (j + 1))).1 ++ tps.drop (j + 1),
       (TrackingWorker.run track sel neverStop (tps.take (j + 1))).2) := by
  cases tps with
  | nil => simp [TrackingWorker.run]
  | cons tp0 rest =>
      simp only [TrackingWorker.run, List.take_succ_cons, List.drop_succ_cons]
      rw [runFrom_stopped track sel stop rest j 0 tp0 (by simpa using hk) (by simpa using hj)]
      simp

/-- Terminality under no later re-seeding: if the output well at `t` is
not fully defined and no later input timepoint has that well already
defined, then at every later timepoint the well stays as in the input
and the engine is never invoked for it again. -/
theorem run_terminal (track : ℕ → ℕ → Spot → Option Spot) (sel : ℕ)
    (tps : List TimePoint) (t : ℕ) (p : Fin 4) (w : Fin 2)
    (hout : ((((TrackingWorker.run track sel neverStop tps).1.getD t tpDefault).quad
      p).well w).is_defined = false)
    (hlater : ∀ u, t < u → u < tps.length →
      (((tps.getD u tpDefault).quad p).well w).is_defined = false) :
    ∀ u, t < u → u < tps.length →
      ((((TrackingWorker.run track sel neverStop tps).1.getD u tpDefault).quad
        p).well w).is_defined = false ∧
      (⟨u, p, w⟩ : Attempt) ∉ (TrackingWorker.run track sel neverStop tps).2 := by
  have key : ∀ u, t < u → u < tps.length →
      ((((TrackingWorker.run track sel neverStop tps).1.getD u tpDefault).quad
        p).well w).is_defined = false := by
    intro u
    induction u with
    | zero => omega
    | succ u ihu =>
        intro hu hulen
        have hprev : ((((TrackingWorker.run track sel neverStop tps).1.getD u
            tpDefault).quad p).well w).is_defined = false := by
          rcases Nat.lt_or_ge t u with h | h
          · exact ihu h (by omega)
          · have : u = t := by omega
            rw [this]
            exact hout
        have hunch := run_unchanged track sel tps (u + 1) p w (by omega) hulen
          (Or.inl (by simpa using hprev))
        rw [hunch]
        exact hlater (u + 1) (by omega) hulen
  intro u hu hulen
  refine ⟨key u hu hulen, ?_⟩
  intro hmem
  rw [run_char] at hmem
  have hdef := hmem.2.2.2.1
  have hundef : ((((TrackingWorker.run track sel neverStop tps).1.getD (u - 1)
      tpDefault).quad p).well w).is_defined = false := by
    rcases Nat.lt_or_ge t (u - 1) with h | h
    · exact key (u - 1) h (by omega)
    · have : u - 1 = t := by omega
      rw [this]
      exact hout
  simp_all

/-- C2 (amended): for every run of the sequential driver on its
designated camera, (i) the engine is invoked at timepoint `t` for well
`w` exactly when `t-1`'s well `w` (as already processed) has both spots
defined and `t`'s input well `w` is not yet fully defined — timepoints
whose predecessor TimePoint or Quadrant is entirely undefined are
thereby skipped without error; (ii) on success the new Spot is stored
into `t`'s well and on failure the input value (in particular,
undefined) is kept; (iii) wells for which the engine is not invoked are
left unchanged; (iv) the cooperative stop flag is checked between
timepoints and on early termination the already-processed prefix is
exactly the uncancelled run of that prefix, the rest untouched; (v) a
well left not fully defined at `t` is never attempted again at a later
timepoint, provided no later input timepoint already has that well
fully defined (loss is terminal for automatic tracking unless the data
was re-seeded later by hand). -/
theorem claim_C2_amended (track : ℕ → ℕ → Spot → Option Spot) (sel : ℕ)
    (tps : List TimePoint) :
    (∀ (t : ℕ) (p : Fin 4) (w : Fin 2),
      (⟨t, p, w⟩ : Attempt) ∈ (TrackingWorker.run track sel neverStop tps).2 ↔
        1 ≤ t ∧ t < tps.length ∧
          ((tps.getD t tpDefault).quad p).id = sel ∧
          ((((TrackingWorker.run track sel neverStop tps).1.getD (t - 1) tpDefault).quad
            p).well w).is_defined = true ∧
          (((tps.getD t tpDefault).quad p).well w).is_defined = false) ∧
    (∀ (t : ℕ) (p : Fin 4) (w : Fin 2) (p1 p2 : Spot),
      1 ≤ t → t < tps.length →
      ((((TrackingWorker.run track sel neverStop tps).1.getD (t - 1) tpDefault).quad
        p).well w).spot_1 = some p1 →
      ((((TrackingWorker.run track sel neverStop tps).1.getD (t - 1) tpDefault).quad
        p).well w).spot_2 = some p2 →
      ((tps.getD t tpDefault).quad p).id = sel →
      (((tps.getD t tpDefault).quad p).well w).is_defined = false →
      (((TrackingWorker.run track sel neverStop tps).1.getD t tpDefault).quad p).well w =
        ⟨(((tps.getD t tpDefault).quad p).well w).id,
         match track t (2 * (((tps.getD t tpDefault).quad p).well w).id) p1 with
           | some s => some s
           | none => (((tps.getD t tpDefault).quad p).well w).spot_1,
         match track t (2 * (((tps.getD t tpDefault).quad p).well w).id + 1) p2 with
           | some s => some s
           | none => (((tps.getD t tpDefault).quad p).well w).spot_2⟩) ∧
    (∀ (t : ℕ) (p : Fin 4) (w : Fin 2),
      1 ≤ t → t < tps.length →
      (((((TrackingWorker.run track sel neverStop tps).1.getD (t - 1) tpDefault).quad
          p).well w).is_defined = false ∨
        ((tps.getD t tpDefault).quad p).id ≠ sel ∨
        (((tps.getD t tpDefault).quad p).well w).is_defined = true) →
      (((TrackingWorker.run track sel neverStop tps).1.getD t tpDefault).quad p).well w =
        ((tps.getD t tpDefault).quad p).well w) ∧
    (∀ (stop : ℕ → Bool) (j : ℕ),
      (∀ k, k < j → stop k = false) → stop j = true →
      TrackingWorker.run track sel stop tps =
        ((TrackingWorker.run track sel neverStop (tps.take (j + 1))).1 ++ tps.drop (j + 1),
         (TrackingWorker.run track sel neverStop (tps.take (j + 1))).2)) ∧
    (∀ (t : ℕ) (p : Fin 4) (w : Fin 2),
      ((((TrackingWorker.run track sel neverStop tps).1.getD t tpDefault).quad
        p).well w).is_defined = false →
      (∀ u, t < u → u < tps.length →
        (((tps.getD u tpDefault).quad p).well w).is_defined = false) →
      ∀ u, t < u → u < tps.length →
        ((((TrackingWorker.run track sel neverStop tps).1.getD u tpDefault).quad
          p).well w).is_defined = false ∧
        (⟨u, p, w⟩ : Attempt) ∉ (TrackingWorker.run track sel neverStop tps).2) :=
  ⟨fun t p w => run_char track sel tps t p w,
   fun t p w p1 p2 h1 h2 hs1 hs2 hid hcur =>
     run_storage track sel tps t p w p1 p2 h1 h2 hs1 hs2 hid hcur,
   fun t p w h1 h2 h => run_unchanged track sel tps t p w h1 h2 h,
   fun stop j hk hj => run_stopped track sel stop tps j hk hj,
   fun t p w hout hlater => run_terminal track sel tps t p w hout hlater⟩

/-- Witness for C2 at a concrete run: the invocation characterization
yields the attempt at timepoint 1 and rules one out at timepoint 2. -/
theorem claim_C2_witness :
    (⟨1, 0, 0⟩ : Attempt) ∈ (TrackingWorker.run trackCexC2 0 neverStop tpsCex).2 ∧
    (⟨2, 0, 0⟩ : Attempt) ∉ (TrackingWorker.run trackCexC2 0 neverStop tpsCex).2 := by
  constructor
  · exact ((claim_C2_amended trackCexC2 0 tpsCex).1 1 0 0).mpr (by decide)
  · intro h
    have hc := ((claim_C2_amended trackCexC2 0 tpsCex).1 2 0 0).mp h
    revert hc
    decide

/-- Counterexample to C2 as stated: in the concrete run `tpsCex` with
oracle `trackCexC2`, tracking is attempted and fails at timepoint 1 for
well 0 of quadrant A (the spot stays undefined), yet the driver
attempts that same well again at timepoint 3, because the input data
already had the well defined at timepoint 2 — so loss is not
unconditionally terminal for automatic tracking. -/
theorem claim_C2_counterexample :
    trackCexC2 1 0 ⟨10, 10, some 5⟩ = none ∧
    (⟨1, 0, 0⟩ : Attempt) ∈ (TrackingWorker.run trackCexC2 0 neverStop tpsCex).2 ∧
    ((((TrackingWorker.run trackCexC2 0 neverStop tpsCex).1.getD 1 tpDefault).quad
      0).well 0).is_defined = false ∧
    (⟨3, 0, 0⟩ : Attempt) ∈ (TrackingWorker.run trackCexC2 0 neverStop tpsCex).2 := by
  decide

/-- C10 (amended): the driver writes a well's two spots independently,
not atomically: when tracking of one post succeeds and the other fails
(either way round) the successful spot is stored and kept — never
rolled back — with the failed one left `none`; the well is then not
fully defined, so (provided no later input timepoint already has that
well fully defined) neither spot of that well is attempted
automatically at any later timepoint. -/
theorem claim_C10_amended (track : ℕ → ℕ → Spot → Option Spot) (sel : ℕ)
    (tps : List TimePoint) :
    (∀ (t : ℕ) (p : Fin 4) (w : Fin 2) (p1 p2 s : Spot),
      1 ≤ t → t < tps.length →
      ((((TrackingWorker.run track sel neverStop tps).1.getD (t - 1) tpDefault).quad
        p).well w).spot_1 = some p1 →
      ((((TrackingWorker.run track sel neverStop tps).1.getD (t - 1) tpDefault).quad
        p).well w).spot_2 = some p2 →
      ((tps.getD t tpDefault).quad p).id = sel →
      (((tps.getD t tpDefault).quad p).well w).spot_2 = none →
      track t (2 * (((tps.getD t tpDefault).quad p).well w).id) p1 = some s →
      track t (2 * (((tps.getD t tpDefault).quad p).well w).id + 1) p2 = none →
      (((TrackingWorker.run track sel neverStop tps).1.getD t tpDefault).quad p).well w =
          ⟨(((tps.getD t tpDefault).quad p).well w).id, some s, none⟩ ∧
        ((((TrackingWorker.run track sel neverStop tps).1.getD t tpDefault).quad
          p).well w).is_defined = false) ∧
    (∀ (t : ℕ) (p : Fin 4) (w : Fin 2) (p1 p2 s : Spot),
      1 ≤ t → t < tps.length →
      ((((TrackingWorker.run track sel neverStop tps).1.getD (t - 1) tpDefault).quad
        p).well w).spot_1 = some p1 →
      ((((TrackingWorker.run track sel neverStop tps).1.getD (t - 1) tpDefault).quad
        p).well w).spot_2 = some p2 →
      ((tps.getD t tpDefault).quad p).id = sel →
      (((tps.getD t tpDefault).quad p).well w).spot_1 = none →
      track t (2 * (((tps.getD t tpDefault).quad p).well w).id) p1 = none →
      track t (2 * (((tps.getD t tpDefault).quad p).well w).id + 1) p2 = some s →
      (((TrackingWorker.run track sel neverStop tps).1.getD t tpDefault).quad p).well w =
          ⟨(((tps.getD t tpDefault).quad p).well w).id, none, some s⟩ ∧
        ((((TrackingWorker.run track sel neverStop tps).1.getD t tpDefault).quad
          p).well w).is_defined = false) ∧
    (∀ (t : ℕ) (p : Fin 4) (w : Fin 2),
      ((((TrackingWorker.run track sel neverStop tps).1.getD t tpDefault).quad
        p).well w).is_defined = false →
      (∀ u, t < u → u < tps.length →
        (((tps.getD u tpDefault).quad p).well w).is_defined = false) →
      ∀ u, t < u → u < tps.length →
        (⟨u, p, w⟩ : Attempt) ∉ (TrackingWorker.run track sel neverStop tps).2) := by
  refine ⟨?_, ?_, ?_⟩
  · intro t p w p1 p2 s h1 h2 hs1 hs2 hid hnone htr1 htr2
    have hcur : (((tps.getD t tpDefault).quad p).well w).is_defined = false := by
      unfold Well.is_defined
      rw [hnone]
      simp
    have hw := run_storage track sel tps t p w p1 p2 h1 h2 hs1 hs2 hid hcur
    rw [hw, htr1, htr2, hnone]
    exact ⟨rfl, rfl⟩
  · intro t p w p1 p2 s h1 h2 hs1 hs2 hid hnone htr1 htr2
    have hcur : (((tps.getD t tpDefault).quad p).well w).is_defined = false := by
      unfold Well.is_defined
      rw [hnone]
      simp
    have hw := run_storage track sel tps t p w p1 p2 h1 h2 hs1 hs2 hid hcur
    rw [hw, htr1, htr2, hnone]
    exact ⟨rfl, rfl⟩
  · intro t p w hout hlater u hu hulen
    exact (run_terminal track sel tps t p w hout hlater u hu hulen).2

/-- Witness for C10 at a concrete run: at timepoint 1 the first post is
tracked successfully and the second is lost; the partial write is
stored as such. -/
theorem claim_C10_witness :
    (((TrackingWorker.run trackCexC10 0 neverStop tpsCex).1.getD 1 tpDefault).quad
        0).well 0 = ⟨0, some ⟨11, 11, some 5⟩, none⟩ ∧
    ((((TrackingWorker.run trackCexC10 0 neverStop tpsCex).1.getD 1 tpDefault).quad
      0).well 0).is_defined = false :=
  (claim_C10_amended trackCexC10 0 tpsCex).1 1 0 0 ⟨10, 10, some 5⟩ ⟨30, 10, some 5⟩
    ⟨11, 11, some 5⟩ (by decide) (by decide) (by decide) (by decide) (by decide)
    (by decide) (by decide) (by decide)

/-- Counterexample to C10 as stated: in the concrete run `tpsCex` with
oracle `trackCexC10`, at timepoint 1 the first post succeeds and the
second fails, leaving the partial well stored; yet the well is
attempted again at timepoint 3, because the input data already had the
well defined at timepoint 2 — so "never attempted at any later
timepoint" does not hold unconditionally. -/
theorem claim_C10_counterexample :
    trackCexC10 1 0 ⟨10, 10, some 5⟩ = some ⟨11, 11, some 5⟩ ∧
    trackCexC10 1 1 ⟨30, 10, some 5⟩ = none ∧
    (((TrackingWorker.run trackCexC10 0 neverStop tpsCex).1.getD 1 tpDefault).quad
        0).well 0 = ⟨0, some ⟨11, 11, some 5⟩, none⟩ ∧
    (⟨3, 0, 0⟩ : Attempt) ∈ (TrackingWorker.run trackCexC10 0 neverStop tpsCex).2 := by
  decide

/-- C1: for `track_spot` with a prior radius `r`, the effective Hough
band is `[max(int(r*0.75), caller_min), min(int(r*1.25), caller_max)]`
with each caller bound applied only when supplied; in cold-start
detection the band defaults to `[int(shorter side / 4),
int(shorter side * 2)]` before the caller bounds are combined the same
way; the search subframe is the axis-aligned square of side
`2*(radius+margin)` centered on the prior center (whenever it lies
inside the image); and on success the returned spot is the
region-relative circle center translated by the subframe's top-left
corner, truncated to integers, with its radius inside the effective
band (granted the Hough contract that returned circles respect the
requested radius bounds). -/
theorem claim_C1 :
    (∀ (rows cols : ℕ) (r : ℤ) (cmin cmax : Option ℤ),
      effBand rows cols (some r) cmin cmax =
        (cmin.elim (pyInt ((r : ℚ) * (3 / 4))) (fun m => max (pyInt ((r : ℚ) * (3 / 4))) m),
         cmax.elim (pyInt ((r : ℚ) * (5 / 4))) (fun m => min (pyInt ((r : ℚ) * (5 / 4))) m))) ∧
    (∀ (rows cols : ℕ) (cmin cmax : Option ℤ),
      effBand rows cols none cmin cmax =
        (cmin.elim ((min rows cols : ℤ) / 4) (fun m => max ((min rows cols : ℤ) / 4) m),
         cmax.elim ((min rows cols : ℤ) * 2) (fun m => min ((min rows cols : ℤ) * 2) m))) ∧
    (∀ (img : Image) (spot : Spot) (off r : ℤ),
      spot.radius = some r → 0 ≤ r → 0 ≤ off →
      0 ≤ spot.y - r - off → spot.y + r + off ≤ (img.rows : ℤ) →
      0 ≤ spot.x - r - off → spot.x + r + off ≤ (img.cols : ℤ) →
      (crop img (spot.y - r - off) (spot.y + r + off)
          (spot.x - r - off) (spot.x + r + off)).rows = (2 * (r + off)).toNat ∧
      (crop img (spot.y - r - off) (spot.y + r + off)
          (spot.x - r - off) (spot.x + r + off)).cols = (2 * (r + off)).toNat ∧
      (spot.y - r - off) + (r + off) = spot.y ∧
      (spot.x - r - off) + (r + off) = spot.x ∧
      ∀ i j, (crop img (spot.y - r - off) (spot.y + r + off)
          (spot.x - r - off) (spot.x + r + off)).pix i j =
        img.pix ((spot.y - r - off).toNat + i) ((spot.x - r - off).toNat + j)) ∧
    (∀ (cv : CV) (img : Image) (spot : Spot) (off : ℤ) (cmin cmax : Option ℤ)
        (r : ℤ) (s : Spot),
      spot.radius = some r →
      (∀ l c,
        cv.hough (crop img (spot.y - r - off) (spot.y + r + off)
            (spot.x - r - off) (spot.x + r + off)).rows
          (crop img (spot.y - r - off) (spot.y + r + off)
            (spot.x - r - off) (spot.x + r + off)).cols
          (maskOf cv (crop img (spot.y - r - off) (spot.y + r + off)
            (spot.x - r - off) (spot.x + r + off)))
          1
          (max (crop img (spot.y - r - off) (spot.y + r + off)
            (spot.x - r - off) (spot.x + r + off)).rows
            (crop img (spot.y - r - off) (spot.y + r + off)
              (spot.x - r - off) (spot.x + r + off)).cols)
          255 1
          (effBand (crop img (spot.y - r - off) (spot.y + r + off)
              (spot.x - r - off) (spot.x + r + off)).rows
            (crop img (spot.y - r - off) (spot.y + r + off)
              (spot.x - r - off) (spot.x + r + off)).cols
            (some r) cmin cmax).1
          (effBand (crop img (spot.y - r - off) (spot.y + r + off)
              (spot.x - r - off) (spot.x + r + off)).rows
            (crop img (spot.y - r - off) (spot.y + r + off)
              (spot.x - r - off) (spot.x + r + off)).cols
            (some r) cmin cmax).2 = some l → c ∈ l →
        ((effBand (crop img (spot.y - r - off) (spot.y + r + off)
              (spot.x - r - off) (spot.x + r + off)).rows
            (crop img (spot.y - r - off) (spot.y + r + off)
              (spot.x - r - off) (spot.x + r + off)).cols
            (some r) cmin cmax).1 : ℚ) ≤ c.r ∧
          (c.r : ℚ) ≤ ((effBand (crop img (spot.y - r - off) (spot.y + r + off)
              (spot.x - r - off) (spot.x + r + off)).rows
            (crop img (spot.y - r - off) (spot.y + r + off)
              (spot.x - r - off) (spot.x + r + off)).cols
            (some r) cmin cmax).2 : ℚ) ∧ 0 ≤ c.r) →
      track_spot cv img spot off cmin cmax = .ok (some s) →
      ∃ c : HoughCircle,
        s.x = spot.x - r - off + pyInt c.cx ∧
        s.y = spot.y - r - off + pyInt c.cy ∧
        s.radius = some (pyInt c.r) ∧
        (effBand (crop img (spot.y - r - off) (spot.y + r + off)
            (spot.x - r - off) (spot.x + r + off)).rows
          (crop img (spot.y - r - off) (spot.y + r + off)
            (spot.x - r - off) (spot.x + r + off)).cols
          (some r) cmin cmax).1 ≤ pyInt c.r ∧
        pyInt c.r ≤ (effBand (crop img (spot.y - r - off) (spot.y + r + off)
            (spot.x - r - off) (spot.x + r + off)).rows
          (crop img (spot.y - r - off) (spot.y + r + off)
            (spot.x - r - off) (spot.x + r + off)).cols
          (some r) cmin cmax).2) := by
  refine ⟨?_, ?_, ?_, ?_⟩
  · intro rows cols r cmin cmax
    cases cmin <;> cases cmax <;> rfl
  · intro rows cols cmin cmax
    cases cmin <;> cases cmax <;> rfl
  · intro img spot off r hr h0r h0off hy1 hy2 hx1 hx2
    have ha : npIndex img.rows (spot.y - r - off) = (spot.y - r - off).toNat := by
      unfold npIndex
      rw [if_neg (by omega)]
      omega
    have hb : npIndex img.rows (spot.y + r + off) = (spot.y + r + off).toNat := by
      unfold npIndex
      rw [if_neg (by omega)]
      omega
    have hc : npIndex img.cols (spot.x - r - off) = (spot.x - r - off).toNat := by
      unfold npIndex
      rw [if_neg (by omega)]
      omega
    have hd : npIndex img.cols (spot.x + r + off) = (spot.x + r + off).toNat := by
      unfold npIndex
      rw [if_neg (by omega)]
      omega
    refine ⟨?_, ?_, by omega, by omega, ?_⟩
    · simp only [crop, ha, hb]
      omega
    · simp only [crop, hc, hd]
      omega
    · intro i j
      simp only [crop, ha, hc]
  · intro cv img spot off cmin cmax r s hr hband hs
    simp only [track_spot, hr] at hs
    rcases hd : detectSpotSub cv
        (crop img (spot.y - r - off) (spot.y + r + off)
          (spot.x - r - off) (spot.x + r + off)) cmin cmax (some r) with _ | v
    · rw [hd] at hs
      simp at hs
    · obtain ⟨a, b, rr⟩ := v
      rw [hd] at hs
      simp only [Except.ok.injEq, Option.some.injEq] at hs
      subst hs
      simp only [detectSpotSub] at hd
      rcases hh : cv.hough (crop img (spot.y - r - off) (spot.y + r + off)
          (spot.x - r - off) (spot.x + r + off)).rows
        (crop img (spot.y - r - off) (spot.y + r + off)
          (spot.x - r - off) (spot.x + r + off)).cols
        (maskOf cv (crop img (spot.y - r - off) (spot.y + r + off)
          (spot.x - r - off) (spot.x + r + off)))
        1
        (max (crop img (spot.y - r - off) (spot.y + r + off)
          (spot.x - r - off) (spot.x + r + off)).rows
          (crop img (spot.y - r - off) (spot.y + r + off)
            (spot.x - r - off) (spot.x + r + off)).cols)
        255 1
        (effBand (crop img (spot.y - r - off) (spot.y + r + off)
            (spot.x - r - off) (spot.x + r + off)).rows
          (crop img (spot.y - r - off) (spot.y + r + off)
            (spot.x - r - off) (spot.x + r + off)).cols
          (some r) cmin cmax).1
        (effBand (crop img (spot.y - r - off) (spot.y + r + off)
            (spot.x - r - off) (spot.x + r + off)).rows
          (crop img (spot.y - r - off) (spot.y + r + off)
            (spot.x - r - off) (spot.x + r + off)).cols
          (some r) cmin cmax).2 with _ | l
      · rw [hh] at hd
        simp at hd
      · rw [hh] at hd
        rcases l with _ | ⟨c, _ | ⟨c2, lrest⟩⟩
        · simp at hd
        · simp only [Option.some.injEq, Prod.mk.injEq] at hd
          obtain ⟨hda, hdb, hdr⟩ := hd
          obtain ⟨hb1, hb2, hb0⟩ := hband [c] c hh (by simp)
          refine ⟨c, by simp [← hda], by simp [← hdb], by simp [← hdr], ?_, ?_⟩
          · unfold pyInt
            rw [if_pos hb0]
            exact Int.le_floor.mpr hb1
          · unfold pyInt
            rw [if_pos hb0]
            have hfl : (⌊c.r⌋ : ℚ) ≤ c.r := Int.floor_le c.r
            exact_mod_cast hfl.trans hb2
        · simp at hd

/-- Witness for C1 at a concrete tracking call: prior radius 8, margin
10, caller bounds 7 and 9; the band arithmetic, the 36×36 search square
centered on (50, 50), and a successful track whose radius 7 lies in the
uncapped band [6, 10]. -/
theorem claim_C1_witness :
    effBand 36 36 (some 8) (some 7) (some 9) = (7, 9) ∧
    (crop img100 (50 - 8 - 10) (50 + 8 + 10) (50 - 8 - 10) (50 + 8 + 10)).rows
      = ((2 * (8 + 10) : ℤ)).toNat ∧
    ((50 : ℤ) - 8 - 10) + (8 + 10) = 50 ∧
    track_spot cvSeven img100 ⟨50, 50, some 8⟩ 10 none none
      = .ok (some ⟨35, 36, some 7⟩) ∧
    (6 : ℤ) ≤ 7 ∧ (7 : ℤ) ≤ 10 := by
  have h1 := claim_C1.1 36 36 8 (some 7) (some 9)
  have h3 := claim_C1.2.2.1 img100 ⟨50, 50, some 8⟩ 10 8 rfl (by norm_num) (by norm_num)
    (by norm_num) (by norm_num [img100]) (by norm_num) (by norm_num [img100])
  have hband6 : ((effBand (crop img100 (50 - 8 - 10) (50 + 8 + 10)
      (50 - 8 - 10) (50 + 8 + 10)).rows (crop img100 (50 - 8 - 10) (50 + 8 + 10)
      (50 - 8 - 10) (50 + 8 + 10)).cols (some 8) none none) : ℤ × ℤ) = (6, 10) := by
    simp only [effBand]
    norm_num [pyInt]
  have hband : ∀ (rows cols : ℕ) (mask : ℕ → ℕ → ℕ) (dp : ℚ) (md q1 q2 : ℕ)
      (l : List HoughCircle) (c : HoughCircle),
      cvSeven.hough rows cols mask dp md q1 q2 6 10 = some l → c ∈ l →
        (((6 : ℤ) : ℚ) ≤ c.r ∧ (c.r : ℚ) ≤ ((10 : ℤ) : ℚ) ∧ 0 ≤ c.r) := by
    intro rows cols mask dp md q1 q2 l c h hc
    replace h : some [(⟨3, 4, 7⟩ : HoughCircle)] = some l := h
    injection h with h
    subst h
    simp only [List.mem_singleton] at hc
    subst hc
    refine ⟨by decide, by decide, by decide⟩
  have h4 := claim_C1.2.2.2 cvSeven img100 ⟨50, 50, some 8⟩ 10 none none 8
    ⟨35, 36, some 7⟩ rfl
    (by
      rw [show ((50 : ℤ) - 8 - 10) = 32 from by norm_num,
        show ((50 : ℤ) + 8 + 10) = 68 from by norm_num] at hband6 ⊢
      rw [hband6]
      intro l c h hc
      exact hband _ _ _ _ _ _ _ l c h hc)
    (by decide)
  obtain ⟨c, hx, hy, hrad, hlo, hhi⟩ := h4
  have hr7 : pyInt c.r = 7 := by
    have : some (7 : ℤ) = some (pyInt c.r) := hrad
    injection this with h
    exact h.symm
  have hb : (effBand (crop img100 ((⟨50, 50, some 8⟩ : Spot).y - 8 - 10)
      ((⟨50, 50, some 8⟩ : Spot).y + 8 + 10) ((⟨50, 50, some 8⟩ : Spot).x - 8 - 10)
      ((⟨50, 50, some 8⟩ : Spot).x + 8 + 10)).rows
      (crop img100 ((⟨50, 50, some 8⟩ : Spot).y - 8 - 10)
      ((⟨50, 50, some 8⟩ : Spot).y + 8 + 10) ((⟨50, 50, some 8⟩ : Spot).x - 8 - 10)
      ((⟨50, 50, some 8⟩ : Spot).x + 8 + 10)).cols (some 8) none none)
      = ((6 : ℤ), (10 : ℤ)) := by
    simp only [effBand]
    norm_num [pyInt]
  rw [hb] at hlo hhi
  refine ⟨by rw [h1]; simp only [Option.elim]; norm_num [pyInt], h3.1, h3.2.2.1,
    by decide, ?_, ?_⟩
  · rw [hr7] at hlo
    exact hlo
  · rw [hr7] at hhi
    exact hhi
